import Mathlib

/-!
Shallow embedding of the assessment data store of `sky0621/go_work_sample`:
the domain model (`core/pkg/domain`), the in-memory indexed repository
(`core/pkg/memory`), the JSON-file durability wrapper
(`core/pkg/storage/filedb`) and the orchestration service
(`core/pkg/usecase`).  Go maps are modelled as association lists with
first-match lookup and replace-in-place insertion; `time.Time` is modelled
as `Nat`; Go's `(value, error)` returns are modelled as `Option`
results for reads and `Option Err × State` pairs for mutations.
-/

namespace Assessment

/-- `time.Time`, ordered by `Before`. -/
abbrev Time := Nat

abbrev SchoolID := String
abbrev GradeID := String
abbrev ClassID := String
abbrev TeacherID := String
abbrev StudentID := String
abbrev TestID := String
abbrev QuestionID := String
abbrev AnswerID := String
abbrev ResultID := String

/-- `domain.School`. -/
structure School where
  ID : SchoolID
  Name : String
  CreatedAt : Time
deriving DecidableEq

/-- `domain.Grade`. -/
structure Grade where
  ID : GradeID
  SchoolID : SchoolID
  Name : String
  CreatedAt : Time
deriving DecidableEq

/-- `domain.Class`. -/
structure Class where
  ID : ClassID
  GradeID : GradeID
  Name : String
  CreatedAt : Time
deriving DecidableEq

/-- `domain.Teacher`. -/
structure Teacher where
  ID : TeacherID
  SchoolID : SchoolID
  Name : String
  Email : String
  CreatedAt : Time
deriving DecidableEq

/-- `domain.Student`. -/
structure Student where
  ID : StudentID
  ClassID : ClassID
  Name : String
  Email : String
  CreatedAt : Time
deriving DecidableEq

/-- `domain.Test`. -/
structure Test where
  ID : TestID
  TeacherID : TeacherID
  Title : String
  Published : Bool
  CreatedAt : Time
  UpdatedAt : Time
  AssignedTo : List StudentID
deriving DecidableEq

/-- `domain.Question`. -/
structure Question where
  ID : QuestionID
  TestID : TestID
  Sequence : Nat
  Prompt : String
  Points : Int
  CreatedAt : Time
deriving DecidableEq

/-- `domain.Answer`. -/
structure Answer where
  ID : AnswerID
  TestID : TestID
  QuestionID : QuestionID
  StudentID : StudentID
  Response : String
  CreatedAt : Time
  UpdatedAt : Time
deriving DecidableEq

/-- `domain.Result`. -/
structure Result where
  ID : ResultID
  AnswerID : AnswerID
  Score : Int
  Feedback : String
  Completed : Bool
  CreatedAt : Time
  UpdatedAt : Time
deriving DecidableEq

/-- The closed error taxonomy: the sentinel values of `core/pkg/errs`, the
`errors.New` values produced inside the memory repository (`memErr`), and
the infrastructure failure of the durability layer (`infra`). -/
inductive Err where
  | memErr (msg : String)
  | infra
  | teacherNotFound
  | studentNotFound
  | testNotFound
  | questionNotFound
  | answerNotFound
  | resultNotFound
  | studentNotAssigned
  | forbiddenTeacher
  | invalidTest
  | invalidQuestion
  | invalidAnswer
  | noQuestions
deriving DecidableEq

/-- A Go `map[K]V`, as an association list: `alookup` finds the first
binding, `aset` replaces the first binding in place or appends. -/
abbrev AList (K V : Type) := List (K × V)

def alookup [DecidableEq K] : AList K V → K → Option V
  | [], _ => none
  | (k', v) :: rest, k => if k' = k then some v else alookup rest k

def aset [DecidableEq K] : AList K V → K → V → AList K V
  | [], k, v => [(k, v)]
  | (k', v') :: rest, k, v =>
      if k' = k then (k, v) :: rest else (k', v') :: aset rest k v

def hasKey [DecidableEq K] (m : AList K V) (k : K) : Bool :=
  (alookup m k).isSome

/-- A Go `map[K]struct\x7b\x7d` (a set), as a duplicate-free list. -/
def setInsert [DecidableEq α] (s : List α) (a : α) : List α :=
  if a ∈ s then s else s ++ [a]

/-- `memory.SeedData`. -/
structure SeedData where
  Schools : List School
  Grades : List Grade
  Classes : List Class
  Teachers : List Teacher
  Students : List Student
deriving DecidableEq

/-- `memory.Repository`: all entity maps and secondary indices. -/
structure Repository where
  schools : AList SchoolID School
  grades : AList GradeID Grade
  classes : AList ClassID Class
  teachers : AList TeacherID Teacher
  students : AList StudentID Student
  tests : AList TestID Test
  questions : AList QuestionID Question
  testQuestions : AList TestID (List QuestionID)
  assignments : AList TestID (List StudentID)
  studentTests : AList StudentID (List TestID)
  answers : AList AnswerID Answer
  answerIndex : AList String AnswerID
  answersByTest : AList TestID (List AnswerID)
  results : AList ResultID Result
  resultByAnswer : AList AnswerID ResultID
deriving DecidableEq

/-- `memory.NewRepository`: a store holding only the seed entities. -/
def NewRepository (seed : SeedData) : Repository where
  schools := seed.Schools.foldl (fun m s => aset m s.ID s) []
  grades := seed.Grades.foldl (fun m g => aset m g.ID g) []
  classes := seed.Classes.foldl (fun m c => aset m c.ID c) []
  teachers := seed.Teachers.foldl (fun m t => aset m t.ID t) []
  students := seed.Students.foldl (fun m st => aset m st.ID st) []
  tests := []
  questions := []
  testQuestions := []
  assignments := []
  studentTests := []
  answers := []
  answerIndex := []
  answersByTest := []
  results := []
  resultByAnswer := []

/-- Comparator of `sort.Slice` on tests: `CreatedAt.Before`. -/
def byTestCreated (a b : Test) : Prop := a.CreatedAt ≤ b.CreatedAt

/-- Comparator of `sort.Slice` on questions: ascending `Sequence`. -/
def byQuestionSeq (a b : Question) : Prop := a.Sequence ≤ b.Sequence

/-- Strict version of `byQuestionSeq`, used to state ordering facts. -/
def byQuestionSeqLt (a b : Question) : Prop := a.Sequence < b.Sequence

/-- Comparator of `sort.Slice` on answers: `CreatedAt.Before`. -/
def byAnswerCreated (a b : Answer) : Prop := a.CreatedAt ≤ b.CreatedAt

/-- Comparator of `sort.Slice` on results: `CreatedAt.Before`. -/
def byResultCreated (a b : Result) : Prop := a.CreatedAt ≤ b.CreatedAt

instance : DecidableRel byTestCreated := fun a b => Nat.decLe a.CreatedAt b.CreatedAt
instance : DecidableRel byQuestionSeq := fun a b => Nat.decLe a.Sequence b.Sequence
instance : DecidableRel byQuestionSeqLt := fun a b => Nat.decLt a.Sequence b.Sequence
instance : DecidableRel byAnswerCreated := fun a b => Nat.decLe a.CreatedAt b.CreatedAt
instance : DecidableRel byResultCreated := fun a b => Nat.decLe a.CreatedAt b.CreatedAt

instance : IsTotal Test byTestCreated := ⟨fun a b => Nat.le_total a.CreatedAt b.CreatedAt⟩
instance : IsTrans Test byTestCreated := ⟨fun _ _ _ => Nat.le_trans⟩
instance : IsTotal Question byQuestionSeq := ⟨fun a b => Nat.le_total a.Sequence b.Sequence⟩
instance : IsTrans Question byQuestionSeq := ⟨fun _ _ _ => Nat.le_trans⟩
instance : IsAntisymm Question byQuestionSeqLt :=
  ⟨fun _ _ h1 h2 => absurd h1 (Nat.not_lt.mpr (Nat.le_of_lt h2))⟩
instance : IsTotal Answer byAnswerCreated := ⟨fun a b => Nat.le_total a.CreatedAt b.CreatedAt⟩
instance : IsTrans Answer byAnswerCreated := ⟨fun _ _ _ => Nat.le_trans⟩
instance : IsTotal Result byResultCreated := ⟨fun a b => Nat.le_total a.CreatedAt b.CreatedAt⟩
instance : IsTrans Result byResultCreated := ⟨fun _ _ _ => Nat.le_trans⟩

namespace Memory

/-- `memory.Repository.GetTeacher` (`nil, nil` on absence becomes `none`). -/
def GetTeacher (r : Repository) (id : TeacherID) : Option Teacher :=
  alookup r.teachers id

/-- `memory.Repository.GetStudent`. -/
def GetStudent (r : Repository) (id : StudentID) : Option Student :=
  alookup r.students id

/-- `memory.Repository.GetTest`. -/
def GetTest (r : Repository) (id : TestID) : Option Test :=
  alookup r.tests id

/-- `memory.answerKey`. -/
def answerKey (testID : TestID) (questionID : QuestionID) (studentID : StudentID) : String :=
  testID ++ "|" ++ questionID ++ "|" ++ studentID

/-- `memory.Repository.CreateTest`: existence checks first, then the
insertion of the test (with `AssignedTo` set to `studentIDs`), the
questions, the question-id list, and both directions of the assignment
relation.  On failure the store is returned unchanged. -/
def CreateTest (r : Repository) (test : Test) (questions : List Question)
    (studentIDs : List StudentID) : Option Err × Repository :=
  if hasKey r.tests test.ID then (some (.memErr "test already exists"), r)
  else if !hasKey r.teachers test.TeacherID then (some (.memErr "teacher not found"), r)
  else if studentIDs.any (fun sid => !hasKey r.students sid) then
    (some (.memErr "student not found"), r)
  else
    let clone := { test with AssignedTo := studentIDs }
    let tests' := aset r.tests test.ID clone
    let questions' := questions.foldl (fun m q => aset m q.ID q) r.questions
    let testQuestions' := aset r.testQuestions test.ID (questions.map (·.ID))
    let assignBase := (alookup r.assignments test.ID).getD []
    let assignments' := aset r.assignments test.ID (studentIDs.foldl setInsert assignBase)
    let studentTests' := studentIDs.foldl
      (fun m sid => aset m sid (setInsert ((alookup m sid).getD []) test.ID))
      r.studentTests
    (none, { r with tests := tests', questions := questions',
                    testQuestions := testQuestions', assignments := assignments',
                    studentTests := studentTests' })

/-- `memory.Repository.UpdateTest`. -/
def UpdateTest (r : Repository) (test : Test) : Option Err × Repository :=
  if !hasKey r.tests test.ID then (some (.memErr "test not found"), r)
  else (none, { r with tests := aset r.tests test.ID test })

/-- `memory.Repository.ListTestsByTeacher`. -/
def ListTestsByTeacher (r : Repository) (teacherID : TeacherID) : List Test :=
  List.insertionSort byTestCreated
    ((r.tests.map Prod.snd).filter (fun t => t.TeacherID = teacherID))

/-- `memory.Repository.ListTestsForStudent`: walk the student→tests index,
keep ids still present in the test map, sort by creation time. -/
def ListTestsForStudent (r : Repository) (studentID : StudentID) : List Test :=
  match alookup r.studentTests studentID with
  | none => []
  | some testRefs =>
      List.insertionSort byTestCreated
        (testRefs.filterMap (fun testID => alookup r.tests testID))

/-- `memory.Repository.ListQuestions`: walk the test's question-id list,
keep ids still present in the question map, sort by ascending sequence. -/
def ListQuestions (r : Repository) (testID : TestID) : List Question :=
  match alookup r.testQuestions testID with
  | none => []
  | some ids =>
      List.insertionSort byQuestionSeq
        (ids.filterMap (fun qid => alookup r.questions qid))

/-- `memory.Repository.IsStudentAssigned`. -/
def IsStudentAssigned (r : Repository) (testID : TestID) (studentID : StudentID) : Bool :=
  match alookup r.assignments testID with
  | none => false
  | some students => decide (studentID ∈ students)

/-- `memory.Repository.UpsertAnswer`: unconditional write keyed by id,
plus (re)population of the triple index and the test→answer-ids index. -/
def UpsertAnswer (r : Repository) (answer : Answer) : Repository :=
  let key := answerKey answer.TestID answer.QuestionID answer.StudentID
  { r with
    answers := aset r.answers answer.ID answer
    answerIndex := aset r.answerIndex key answer.ID
    answersByTest := aset r.answersByTest answer.TestID
      (setInsert ((alookup r.answersByTest answer.TestID).getD []) answer.ID) }

/-- `memory.Repository.GetAnswer`. -/
def GetAnswer (r : Repository) (testID : TestID) (questionID : QuestionID)
    (studentID : StudentID) : Option Answer :=
  match alookup r.answerIndex (answerKey testID questionID studentID) with
  | none => none
  | some ansID => alookup r.answers ansID

/-- `memory.Repository.ListAnswersByTest`. -/
def ListAnswersByTest (r : Repository) (testID : TestID) : List Answer :=
  match alookup r.answersByTest testID with
  | none => []
  | some ids =>
      List.insertionSort byAnswerCreated
        (ids.filterMap (fun aid => alookup r.answers aid))

/-- `memory.Repository.SaveResult`: unconditional write keyed by id, plus
the answer→result-id index. -/
def SaveResult (r : Repository) (result : Result) : Repository :=
  { r with
    results := aset r.results result.ID result
    resultByAnswer := aset r.resultByAnswer result.AnswerID result.ID }

/-- `memory.Repository.GetResult`. -/
def GetResult (r : Repository) (answerID : AnswerID) : Option Result :=
  match alookup r.resultByAnswer answerID with
  | none => none
  | some resultID => alookup r.results resultID

/-- `memory.Repository.ListResultsByTest`. -/
def ListResultsByTest (r : Repository) (testID : TestID) : List Result :=
  match alookup r.answersByTest testID with
  | none => []
  | some answerIDs =>
      List.insertionSort byResultCreated
        (answerIDs.filterMap (fun aid =>
          match alookup r.resultByAnswer aid with
          | none => none
          | some resultID => alookup r.results resultID))

/-- `memory.Repository.ListResultsByStudent`. -/
def ListResultsByStudent (r : Repository) (testID : TestID) (studentID : StudentID) :
    List Result :=
  match alookup r.answersByTest testID with
  | none => []
  | some answerIDs =>
      List.insertionSort byResultCreated
        (answerIDs.filterMap (fun aid =>
          match alookup r.answers aid with
          | none => none
          | some ans =>
            if ans.StudentID = studentID then
              match alookup r.resultByAnswer aid with
              | none => none
              | some resultID => alookup r.results resultID
            else none))

end Memory

namespace Usecase

/-- `usecase.QuestionDraft`. -/
structure QuestionDraft where
  Prompt : String
  Points : Int
deriving DecidableEq

/-- `usecase.CreateTestInput`. -/
structure CreateTestInput where
  Title : String
  TeacherID : TeacherID
  Questions : List QuestionDraft
  StudentIDs : List StudentID
deriving DecidableEq

/-- `usecase.GradeInput`. -/
structure GradeInput where
  TeacherID : TeacherID
  TestID : TestID
  QuestionID : QuestionID
  StudentID : StudentID
  Score : Int
  Feedback : String
  Completed : Bool
deriving DecidableEq

/-- `AssessmentService.ensureTeacherOwnsTest`: absent test is NotFound,
a test owned by another teacher is Forbidden. -/
def ensureTeacherOwnsTest (r : Repository) (teacherID : TeacherID) (testID : TestID) :
    Option Err :=
  match Memory.GetTest r testID with
  | none => some .testNotFound
  | some test => if test.TeacherID ≠ teacherID then some .forbiddenTeacher else none

/-- `AssessmentService.CreateTest`.  `id.New()` is modelled by the opaque
generator `gen` (`gen 0` for the test, `gen (i+1)` for question `i`);
`time.Now()` by the explicit `now`.  The mutation returns the service
result together with the store it leaves behind. -/
def CreateTest (r : Repository) (input : CreateTestInput) (gen : Nat → String)
    (now : Time) : Except Err (Test × List Question) × Repository :=
  if input.Title = "" then (.error .invalidTest, r)
  else if input.Questions.length = 0 then (.error .noQuestions, r)
  else
    match Memory.GetTeacher r input.TeacherID with
    | none => (.error .teacherNotFound, r)
    | some _ =>
      if input.StudentIDs.any (fun sid => (Memory.GetStudent r sid).isNone) then
        (.error .studentNotFound, r)
      else if input.Questions.any (fun q => q.Prompt = "") then
        (.error .invalidQuestion, r)
      else
        let test : Test :=
          { ID := gen 0, TeacherID := input.TeacherID, Title := input.Title,
            Published := false, CreatedAt := now, UpdatedAt := now, AssignedTo := [] }
        let questions : List Question := input.Questions.enum.map (fun iq =>
          { ID := gen (iq.1 + 1), TestID := test.ID, Sequence := iq.1 + 1,
            Prompt := iq.2.Prompt, Points := iq.2.Points, CreatedAt := now })
        match Memory.CreateTest r test questions input.StudentIDs with
        | (some e, r') => (.error e, r')
        | (none, r') => (.ok ({ test with AssignedTo := input.StudentIDs }, questions), r')

/-- `AssessmentService.GetQuestionsForTeacher`. -/
def GetQuestionsForTeacher (r : Repository) (teacherID : TeacherID) (testID : TestID) :
    Except Err (List Question) :=
  match ensureTeacherOwnsTest r teacherID testID with
  | some e => .error e
  | none => .ok (List.insertionSort byQuestionSeq (Memory.ListQuestions r testID))

/-- `AssessmentService.ListAnswersByTest`. -/
def ListAnswersByTest (r : Repository) (teacherID : TeacherID) (testID : TestID) :
    Except Err (List Answer) :=
  match ensureTeacherOwnsTest r teacherID testID with
  | some e => .error e
  | none => .ok (List.insertionSort byAnswerCreated (Memory.ListAnswersByTest r testID))

/-- `AssessmentService.ListResultsByTest`. -/
def ListResultsByTest (r : Repository) (teacherID : TeacherID) (testID : TestID) :
    Except Err (List Result) :=
  match ensureTeacherOwnsTest r teacherID testID with
  | some e => .error e
  | none => .ok (List.insertionSort byResultCreated (Memory.ListResultsByTest r testID))

/-- `AssessmentService.ListTestsForStudent`. -/
def ListTestsForStudent (r : Repository) (studentID : StudentID) :
    Except Err (List Test) :=
  match Memory.GetStudent r studentID with
  | none => .error .studentNotFound
  | some _ => .ok (List.insertionSort byTestCreated (Memory.ListTestsForStudent r studentID))

/-- `AssessmentService.SubmitAnswer`.  The Go `*domain.Answer` argument is
an `Option Answer` (`none` is the nil pointer).  A fresh answer id is
`fresh`, `time.Now()` is `now`. -/
def SubmitAnswer (r : Repository) (answerArg : Option Answer) (fresh : String)
    (now : Time) : Except Err Answer × Repository :=
  match answerArg with
  | none => (.error .invalidAnswer, r)
  | some answer =>
    match Memory.GetStudent r answer.StudentID with
    | none => (.error .studentNotFound, r)
    | some _ =>
      if !Memory.IsStudentAssigned r answer.TestID answer.StudentID then
        (.error .studentNotAssigned, r)
      else if !(Memory.ListQuestions r answer.TestID).any
          (fun q => q.ID = answer.QuestionID) then
        (.error .questionNotFound, r)
      else
        let final :=
          match Memory.GetAnswer r answer.TestID answer.QuestionID answer.StudentID with
          | some existing =>
              { answer with ID := existing.ID, CreatedAt := existing.CreatedAt,
                            UpdatedAt := now }
          | none => { answer with ID := fresh, CreatedAt := now, UpdatedAt := now }
        (.ok final, Memory.UpsertAnswer r final)

/-- `AssessmentService.GradeAnswer`. -/
def GradeAnswer (r : Repository) (input : GradeInput) (fresh : String) (now : Time) :
    Except Err Result × Repository :=
  match ensureTeacherOwnsTest r input.TeacherID input.TestID with
  | some e => (.error e, r)
  | none =>
    if !Memory.IsStudentAssigned r input.TestID input.StudentID then
      (.error .studentNotAssigned, r)
    else
      match Memory.GetAnswer r input.TestID input.QuestionID input.StudentID with
      | none => (.error .answerNotFound, r)
      | some answer =>
        match Memory.GetResult r answer.ID with
        | some existing =>
            let updated :=
              { existing with Score := input.Score, Feedback := input.Feedback,
                              Completed := input.Completed, UpdatedAt := now }
            (.ok updated, Memory.SaveResult r updated)
        | none =>
            let result : Result :=
              { ID := fresh, AnswerID := answer.ID, Score := input.Score,
                Feedback := input.Feedback, Completed := input.Completed,
                CreatedAt := now, UpdatedAt := now }
            (.ok result, Memory.SaveResult r result)

end Usecase

namespace FileDB

/-- Modelled from the spec: `memory.State` (whose source file is not part
of the provided sources; only its callers in `filedb.go` are) is the
snapshot layout of §6 — organizational seed entities and all mutable
entities, tests carrying their assigned-student lists, sufficient to
reconstruct every index on load. -/
structure State where
  Schools : List School
  Grades : List Grade
  Classes : List Class
  Teachers : List Teacher
  Students : List Student
  Tests : List Test
  Questions : List Question
  Answers : List Answer
  Results : List Result
deriving DecidableEq

/-- Modelled from the spec: `memory.Repository.ExportState` (source file
missing) dumps every entity map of the store into the snapshot. -/
def ExportState (r : Repository) : State where
  Schools := r.schools.map Prod.snd
  Grades := r.grades.map Prod.snd
  Classes := r.classes.map Prod.snd
  Teachers := r.teachers.map Prod.snd
  Students := r.students.map Prod.snd
  Tests := r.tests.map Prod.snd
  Questions := r.questions.map Prod.snd
  Answers := r.answers.map Prod.snd
  Results := r.results.map Prod.snd

/-- Modelled from the spec: `memory.NewRepositoryFromState` (source file
missing) rebuilds every entity map and every index of §4.1 from the
snapshot: question ids grouped per test, the assignment relation in both
directions from each test's assigned-student list, the answer triple index
and per-test answer ids, and the answer→result index. -/
def NewRepositoryFromState (st : State) : Repository where
  schools := st.Schools.foldl (fun m s => aset m s.ID s) []
  grades := st.Grades.foldl (fun m g => aset m g.ID g) []
  classes := st.Classes.foldl (fun m c => aset m c.ID c) []
  teachers := st.Teachers.foldl (fun m t => aset m t.ID t) []
  students := st.Students.foldl (fun m s => aset m s.ID s) []
  tests := st.Tests.foldl (fun m t => aset m t.ID t) []
  questions := st.Questions.foldl (fun m q => aset m q.ID q) []
  testQuestions := st.Questions.foldl
    (fun m q => aset m q.TestID (((alookup m q.TestID).getD []) ++ [q.ID])) []
  assignments := st.Tests.foldl (fun m t => aset m t.ID t.AssignedTo) []
  studentTests := st.Tests.foldl
    (fun m t => t.AssignedTo.foldl
      (fun m2 sid => aset m2 sid (setInsert ((alookup m2 sid).getD []) t.ID)) m) []
  answers := st.Answers.foldl (fun m a => aset m a.ID a) []
  answerIndex := st.Answers.foldl
    (fun m a => aset m (Memory.answerKey a.TestID a.QuestionID a.StudentID) a.ID) []
  answersByTest := st.Answers.foldl
    (fun m a => aset m a.TestID (setInsert ((alookup m a.TestID).getD []) a.ID)) []
  results := st.Results.foldl (fun m res => aset m res.ID res) []
  resultByAnswer := st.Results.foldl (fun m res => aset m res.AnswerID res.ID) []

/-- `filedb.Repository`: the in-memory delegate plus the canonical file's
content (`none` while no snapshot exists). -/
structure FileRepo where
  delegate : Repository
  disk : Option State
deriving DecidableEq

/-- `filedb.NewRepository`: load the snapshot when the file exists,
otherwise seed a fresh store and write the initial snapshot. -/
def NewRepository (disk : Option State) (seed : SeedData) : FileRepo :=
  match disk with
  | some st => { delegate := NewRepositoryFromState st, disk := some st }
  | none =>
      let d := Assessment.NewRepository seed
      { delegate := d, disk := some (ExportState d) }

/-- `filedb.Repository.persist`: serialize the full state and atomically
replace the snapshot.  `persistOk = false` models a serialization or
rename failure: the error is returned, the already-mutated delegate is
kept, and the on-disk snapshot stays what it was. -/
def persist (d : Repository) (oldDisk : Option State) (persistOk : Bool) :
    Option Err × FileRepo :=
  if persistOk then (none, { delegate := d, disk := some (ExportState d) })
  else (some .infra, { delegate := d, disk := oldDisk })

/-- `filedb.Repository.CreateTest`: delegate first, persist only on
success. -/
def CreateTest (fr : FileRepo) (persistOk : Bool) (test : Test)
    (questions : List Question) (studentIDs : List StudentID) :
    Option Err × FileRepo :=
  match Memory.CreateTest fr.delegate test questions studentIDs with
  | (some e, _) => (some e, fr)
  | (none, d') => persist d' fr.disk persistOk

/-- `filedb.Repository.UpdateTest`. -/
def UpdateTest (fr : FileRepo) (persistOk : Bool) (test : Test) :
    Option Err × FileRepo :=
  match Memory.UpdateTest fr.delegate test with
  | (some e, _) => (some e, fr)
  | (none, d') => persist d' fr.disk persistOk

/-- `filedb.Repository.UpsertAnswer` (the delegate never fails). -/
def UpsertAnswer (fr : FileRepo) (persistOk : Bool) (answer : Answer) :
    Option Err × FileRepo :=
  persist (Memory.UpsertAnswer fr.delegate answer) fr.disk persistOk

/-- `filedb.Repository.SaveResult` (the delegate never fails). -/
def SaveResult (fr : FileRepo) (persistOk : Bool) (result : Result) :
    Option Err × FileRepo :=
  persist (Memory.SaveResult fr.delegate result) fr.disk persistOk

end FileDB

/-! ### Concrete fixtures used by witnesses -/

/-- A small seed: one school, one teacher, three students. -/
def seedC : SeedData where
  Schools := [{ ID := "school-1", Name := "High", CreatedAt := 0 }]
  Grades := []
  Classes := []
  Teachers := [{ ID := "teacher-1", SchoolID := "school-1", Name := "Smith",
                 Email := "smith@example.com", CreatedAt := 0 }]
  Students := [{ ID := "s1", ClassID := "c1", Name := "Alice",
                 Email := "alice@example.com", CreatedAt := 0 },
               { ID := "s2", ClassID := "c1", Name := "Bob",
                 Email := "bob@example.com", CreatedAt := 1 },
               { ID := "s3", ClassID := "c1", Name := "Charlie",
                 Email := "charlie@example.com", CreatedAt := 2 }]

/-- The seeded store. -/
def repoC : Repository := NewRepository seedC

/-- A test owned by `teacher-1`. -/
def testC : Test where
  ID := "t1"
  TeacherID := "teacher-1"
  Title := "History Quiz"
  Published := false
  CreatedAt := 3
  UpdatedAt := 3
  AssignedTo := []

/-- Two questions of `t1`. -/
def questionsC : List Question :=
  [{ ID := "q1", TestID := "t1", Sequence := 1, Prompt := "Who?", Points := 10,
     CreatedAt := 3 },
   { ID := "q2", TestID := "t1", Sequence := 2, Prompt := "When?", Points := 5,
     CreatedAt := 3 }]

/-- The store after `t1` was created for students `s1`, `s2`. -/
def repoT : Repository :=
  (Memory.CreateTest repoC testC questionsC ["s1", "s2"]).2

/-- A first answer for (`t1`, `q1`, `s1`). -/
def a1C : Answer where
  ID := "a-1"
  TestID := "t1"
  QuestionID := "q1"
  StudentID := "s1"
  Response := "first"
  CreatedAt := 4
  UpdatedAt := 4

/-- A second answer for the same triple, under a distinct id. -/
def a2C : Answer where
  ID := "a-2"
  TestID := "t1"
  QuestionID := "q1"
  StudentID := "s1"
  Response := "second"
  CreatedAt := 5
  UpdatedAt := 5

/-- The answer payload with an empty response text submitted for C9. -/
def emptyAnsC : Answer where
  ID := ""
  TestID := "t1"
  QuestionID := "q1"
  StudentID := "s1"
  Response := ""
  CreatedAt := 0
  UpdatedAt := 0

/-- The durable store over `repoC` with its snapshot on disk. -/
def fileRepoC : FileDB.FileRepo where
  delegate := repoC
  disk := some (FileDB.ExportState repoC)

/-- The number of stored answers carrying a given
(test, question, student) triple. -/
def countAnswersFor (r : Repository) (t : TestID) (q : QuestionID)
    (s : StudentID) : Nat :=
  r.answers.countP (fun e =>
    decide (e.2.TestID = t ∧ e.2.QuestionID = q ∧ e.2.StudentID = s))

/-- The number of stored results carrying a given answer id. -/
def countResultsFor (r : Repository) (aid : AnswerID) : Nat :=
  r.results.countP (fun e => decide (e.2.AnswerID = aid))

/-- An existing grading result for answer `a-1`. -/
def res0C : Result where
  ID := "r-1"
  AnswerID := "a-1"
  Score := 5
  Feedback := "ok"
  Completed := true
  CreatedAt := 6
  UpdatedAt := 6

/-- The seeded store with answer `a-1` submitted and graded once. -/
def repoR : Repository :=
  Memory.SaveResult (Memory.UpsertAnswer repoT a1C) res0C

/-- A re-grading instruction for the same answer. -/
def ginC : Usecase.GradeInput where
  TeacherID := "teacher-1"
  TestID := "t1"
  QuestionID := "q1"
  StudentID := "s1"
  Score := 9
  Feedback := "better"
  Completed := true

/-- The in-place update `GradeAnswer` applies to an existing result:
score, feedback, completed and the update timestamp from the latest call,
everything else kept. -/
def regraded (res0 : Result) (gin : Usecase.GradeInput) (now : Time) : Result :=
  { res0 with
      Score := gin.Score
      Feedback := gin.Feedback
      Completed := gin.Completed
      UpdatedAt := now }

/-- A three-draft test creation request. -/
def inputC : Usecase.CreateTestInput where
  Title := "Math Quiz"
  TeacherID := "teacher-1"
  Questions := [{ Prompt := "1+1?", Points := 5 },
                { Prompt := "2+2?", Points := 7 },
                { Prompt := "3+3?", Points := 9 }]
  StudentIDs := ["s1", "s2"]

/-- A deterministic stand-in for the opaque id generator. -/
def genC : Nat → String := fun i => "id-" ++ toString i

/-- One mutating operation of the Index Store. -/
inductive Op where
  | createTest (test : Test) (questions : List Question) (studentIDs : List StudentID)
  | updateTest (test : Test)
  | upsertAnswer (answer : Answer)
  | saveResult (result : Result)

/-- Apply one operation; a failed operation leaves the store unchanged. -/
def applyOp (r : Repository) : Op → Repository
  | .createTest t qs sids => (Memory.CreateTest r t qs sids).2
  | .updateTest t => (Memory.UpdateTest r t).2
  | .upsertAnswer a => Memory.UpsertAnswer r a
  | .saveResult res => Memory.SaveResult r res

/-- Apply a sequence of operations. -/
def applyOps (r : Repository) (ops : List Op) : Repository :=
  ops.foldl applyOp r

/-- The test→students view of the assignment relation. -/
def assignedSet (r : Repository) (tid : TestID) : List StudentID :=
  (alookup r.assignments tid).getD []

/-- The student→tests view of the assignment relation. -/
def studentTestSet (r : Repository) (sid : StudentID) : List TestID :=
  (alookup r.studentTests sid).getD []

/-- The discipline the store maintains: test-map keys match the stored
test's id, every assigned test exists, and the two assignment views agree
— one relation, two indices. -/
def StoreInv (r : Repository) : Prop :=
  (∀ tid t, alookup r.tests tid = some t → t.ID = tid) ∧
  (∀ tid sid, sid ∈ assignedSet r tid → hasKey r.tests tid = true) ∧
  (∀ tid sid, sid ∈ assignedSet r tid ↔ tid ∈ studentTestSet r sid)

/-! ### Association-list lemmas -/

theorem alookup_aset_self [DecidableEq K] (m : AList K V) (k : K) (v : V) :
    alookup (aset m k v) k = some v := by
  induction m with
  | nil => simp [aset, alookup]
  | cons hd tl ih =>
      by_cases h : hd.1 = k
      · simp [aset, h, alookup]
      · simpa [aset, h, alookup] using ih

theorem alookup_aset_ne [DecidableEq K] (m : AList K V) (k k' : K) (v : V)
    (h : k' ≠ k) : alookup (aset m k v) k' = alookup m k' := by
  have hkk : ¬ (k = k') := fun he => h he.symm
  induction m with
  | nil => simp [aset, alookup, hkk]
  | cons hd tl ih =>
      by_cases hk : hd.1 = k
      · simp [aset, hk, alookup, hkk]
      · simp only [aset, hk, if_false, alookup]
        by_cases hk' : hd.1 = k'
        · simp [hk']
        · simp [hk', ih]

theorem aset_of_lookup_none [DecidableEq K] (m : AList K V) (k : K) (v : V)
    (h : alookup m k = none) : aset m k v = m ++ [(k, v)] := by
  induction m with
  | nil => simp [aset]
  | cons hd tl ih =>
      by_cases hk : hd.1 = k
      · simp [alookup, hk] at h
      · simp only [alookup, hk, if_false] at h
        simp [aset, hk, ih h]

theorem aset_append_single [DecidableEq K] (m : AList K V) (k : K) (v w : V)
    (h : alookup m k = none) : aset (m ++ [(k, v)]) k w = m ++ [(k, w)] := by
  induction m with
  | nil => simp [aset]
  | cons hd tl ih =>
      by_cases hk : hd.1 = k
      · simp [alookup, hk] at h
      · simp only [alookup, hk, if_false] at h
        simp [aset, hk, ih h]

theorem hasKey_aset_of_hasKey [DecidableEq K] (m : AList K V) (k k' : K) (v : V)
    (h : hasKey m k' = true) : hasKey (aset m k v) k' = true := by
  by_cases hk : k' = k
  · subst hk
    simp [hasKey, alookup_aset_self]
  · simpa [hasKey, alookup_aset_ne m k k' v hk] using h

theorem mem_setInsert [DecidableEq α] (s : List α) (a x : α) :
    x ∈ setInsert s a ↔ x ∈ s ∨ x = a := by
  unfold setInsert
  by_cases h : a ∈ s
  · simp only [h, if_true]
    constructor
    · exact fun hx => Or.inl hx
    · rintro (hx | rfl)
      · exact hx
      · exact h
  · simp [h]

theorem foldl_setInsert_mem [DecidableEq α] (l : List α) (base : List α) (x : α) :
    x ∈ l.foldl setInsert base ↔ x ∈ base ∨ x ∈ l := by
  induction l generalizing base with
  | nil => simp
  | cons hd tl ih =>
      simp only [List.foldl_cons, ih (setInsert base hd), mem_setInsert,
        List.mem_cons]
      tauto

theorem alookup_split [DecidableEq K] (m : AList K V) (k : K) (v : V)
    (h : alookup m k = some v) :
    ∃ l1 l2, m = l1 ++ (k, v) :: l2 ∧ alookup l1 k = none ∧
      ∀ w, aset m k w = l1 ++ (k, w) :: l2 := by
  induction m with
  | nil => simp [alookup] at h
  | cons hd tl ih =>
      by_cases hk : hd.1 = k
      · refine ⟨[], tl, ?_, by simp [alookup], ?_⟩
        · simp only [alookup, hk, if_true, Option.some.injEq] at h
          cases hd
          simp_all
        · intro w
          simp [aset, hk]
      · simp only [alookup, hk, if_false] at h
        obtain ⟨l1, l2, heq, hnone, hset⟩ := ih h
        refine ⟨hd :: l1, l2, by simp [heq], by simp [alookup, hk, hnone], ?_⟩
        intro w
        simp [aset, hk, hset w]

theorem foldl_aset_lookup_of_not_mem [DecidableEq K]
    (L : List α) (key : α → K) (val : α → V) (m0 : AList K V) (x : K)
    (h : ∀ e ∈ L, key e ≠ x) :
    alookup (L.foldl (fun m e => aset m (key e) (val e)) m0) x = alookup m0 x := by
  induction L generalizing m0 with
  | nil => rfl
  | cons hd tl ih =>
      simp only [List.foldl_cons]
      rw [ih _ (fun e he => h e (List.mem_cons_of_mem hd he))]
      exact alookup_aset_ne m0 (key hd) x (val hd)
        (fun he => h hd (List.mem_cons_self hd tl) he.symm)

theorem foldl_aset_lookup_const [DecidableEq K]
    (L : List α) (key : α → K) (val : α → V) (m0 : AList K V) (x : K) (a : V)
    (h0 : alookup m0 x = some a) (h : ∀ e ∈ L, key e = x → val e = a) :
    alookup (L.foldl (fun m e => aset m (key e) (val e)) m0) x = some a := by
  induction L generalizing m0 with
  | nil => exact h0
  | cons hd tl ih =>
      simp only [List.foldl_cons]
      refine ih _ ?_ (fun e he hk => h e (List.mem_cons_of_mem hd he) hk)
      by_cases hk : key hd = x
      · rw [hk, h hd (List.mem_cons_self hd tl) hk, alookup_aset_self]
      · rw [alookup_aset_ne m0 (key hd) x (val hd) (fun he => hk he.symm)]
        exact h0

theorem foldl_aset_lookup_unique [DecidableEq K]
    (L : List α) (key : α → K) (val : α → V) (x : K) (e : α) (hk : key e = x) :
    ∀ m0 : AList K V, e ∈ L → (∀ e' ∈ L, key e' = x → val e' = val e) →
    alookup (L.foldl (fun m e => aset m (key e) (val e)) m0) x = some (val e) := by
  induction L with
  | nil => intro m0 he _; cases he
  | cons hd tl ih =>
      intro m0 he huni
      simp only [List.foldl_cons]
      by_cases hhd : key hd = x
      · refine foldl_aset_lookup_const tl key val _ x (val e) ?_
          (fun e' he' hk' => huni e' (List.mem_cons_of_mem hd he') hk')
        rw [hhd, huni hd (List.mem_cons_self hd tl) hhd, alookup_aset_self]
      · rcases List.mem_cons.mp he with rfl | hmem
        · exact absurd hk hhd
        · exact ih _ hmem (fun e' he' hk' => huni e' (List.mem_cons_of_mem hd he') hk')

theorem filterMap_map_eq (l : List α) (f : α → β) (g : β → Option α)
    (h : ∀ a ∈ l, g (f a) = some a) : (l.map f).filterMap g = l := by
  induction l with
  | nil => rfl
  | cons hd tl ih =>
      simp only [List.map_cons, List.filterMap_cons, h hd (List.mem_cons_self hd tl)]
      rw [ih (fun a ha => h a (List.mem_cons_of_mem hd ha))]

/-- A sort by ascending sequence of any permutation of a list whose
sequences are strictly increasing returns exactly that list. -/
theorem insertionSort_eq_of_perm_of_sorted (l l' : List Question)
    (hperm : l'.Perm l) (hsorted : l.Pairwise byQuestionSeqLt) :
    List.insertionSort byQuestionSeq l' = l := by
  have hp : (List.insertionSort byQuestionSeq l').Perm l :=
    (List.perm_insertionSort byQuestionSeq l').trans hperm
  have hs : (List.insertionSort byQuestionSeq l').Sorted byQuestionSeq :=
    List.sorted_insertionSort byQuestionSeq l'
  have hnd : (l.map (·.Sequence)).Nodup :=
    List.pairwise_map.mpr (hsorted.imp (fun h => Nat.ne_of_lt h))
  have hnd' : ((List.insertionSort byQuestionSeq l').map (·.Sequence)).Nodup :=
    (hp.map (·.Sequence)).nodup_iff.mpr hnd
  have hs' : (List.insertionSort byQuestionSeq l').Sorted byQuestionSeqLt := by
    have hne : (List.insertionSort byQuestionSeq l').Pairwise
        (fun a b : Question => a.Sequence ≠ b.Sequence) :=
      List.pairwise_map.mp hnd'
    exact (hs.and hne).imp (fun h => Nat.lt_of_le_of_ne h.1 h.2)
  exact List.eq_of_perm_of_sorted hp hs'
    (hsorted.imp (fun h => h))

/-! ### Shared shape lemmas -/

/-- A successful `memory.CreateTest` came through all three checks and
produced exactly the documented insertions. -/
theorem createTest_ok_shape (r : Repository) (test : Test) (qs : List Question)
    (sids : List StudentID) (r' : Repository)
    (h : Memory.CreateTest r test qs sids = (none, r')) :
    r' = { r with
      tests := aset r.tests test.ID { test with AssignedTo := sids }
      questions := qs.foldl (fun m q => aset m q.ID q) r.questions
      testQuestions := aset r.testQuestions test.ID (qs.map (·.ID))
      assignments := aset r.assignments test.ID
        (sids.foldl setInsert ((alookup r.assignments test.ID).getD []))
      studentTests := sids.foldl
        (fun m sid => aset m sid (setInsert ((alookup m sid).getD []) test.ID))
        r.studentTests } ∧
    hasKey r.tests test.ID = false ∧
    hasKey r.teachers test.TeacherID = true ∧
    sids.any (fun sid => !hasKey r.students sid) = false := by
  unfold Memory.CreateTest at h
  by_cases h1 : hasKey r.tests test.ID
  · simp [h1] at h
  · by_cases h2 : hasKey r.teachers test.TeacherID
    · by_cases h3 : sids.any (fun sid => !hasKey r.students sid)
      · simp [h1, h2, h3] at h
      · simp only [h1, h2, h3, Bool.not_true, Bool.not_false, Bool.false_eq_true,
          if_false, if_true, ite_true, ite_false, Prod.mk.injEq, true_and,
          eq_self_iff_true] at h
        refine ⟨h.symm, by simp [h1], by simp [h2], by simp [h3]⟩
    · simp [h1, h2] at h

/-! ### Claim theorems -/

/-- Claim C2: a `CreateTest` call on the Index Store whose test id already
exists, whose teacher id is unknown, or that references an unknown student
id fails and returns the store completely unchanged, so no test, question
or assignment from the call is visible to any subsequent read. -/
theorem createTest_atomic_failure (r : Repository) (test : Test)
    (questions : List Question) (studentIDs : List StudentID)
    (h : hasKey r.tests test.ID = true ∨ hasKey r.teachers test.TeacherID = false ∨
      ∃ sid ∈ studentIDs, hasKey r.students sid = false) :
    ∃ e, Memory.CreateTest r test questions studentIDs = (some e, r) := by
  unfold Memory.CreateTest
  by_cases h1 : hasKey r.tests test.ID
  · exact ⟨.memErr "test already exists", by simp [h1]⟩
  · by_cases h2 : hasKey r.teachers test.TeacherID
    · have h3 : studentIDs.any (fun sid => !hasKey r.students sid) = true := by
        rcases h with h | h | ⟨sid, hmem, hsid⟩
        · exact absurd h h1
        · rw [h2] at h; cases h
        · exact List.any_eq_true.mpr ⟨sid, hmem, by simp [hsid]⟩
      exact ⟨.memErr "student not found", by simp [h1, h2, h3]⟩
    · exact ⟨.memErr "teacher not found", by simp [h1, h2]⟩

/-- Witness for C2: creating `t1` again (its id already exists) fails and
leaves the store untouched. -/
theorem createTest_atomic_failure_witness :
    ∃ e, Memory.CreateTest repoT testC questionsC ["s1"] = (some e, repoT) :=
  createTest_atomic_failure repoT testC questionsC ["s1"] (Or.inl (by decide))

/-- Claim C5: a teacher that does not own an existing test receives the
Authorization error (`ErrForbiddenTeacher`) from every teacher-scoped
operation on it — `GetQuestionsForTeacher`, `ListAnswersByTest`,
`ListResultsByTest` and `GradeAnswer` — an error distinct from the
NotFound error produced when the test does not exist, and distinct from
success. -/
theorem teacher_scoped_ops_forbidden (r : Repository) (t2 : TeacherID) (x : TestID)
    (test : Test) (gin : Usecase.GradeInput) (fresh : String) (now : Time)
    (htest : Memory.GetTest r x = some test) (hne : test.TeacherID ≠ t2)
    (hgt : gin.TeacherID = t2) (hgx : gin.TestID = x) :
    Usecase.GetQuestionsForTeacher r t2 x = .error .forbiddenTeacher ∧
    Usecase.ListAnswersByTest r t2 x = .error .forbiddenTeacher ∧
    Usecase.ListResultsByTest r t2 x = .error .forbiddenTeacher ∧
    Usecase.GradeAnswer r gin fresh now = (.error .forbiddenTeacher, r) ∧
    (∀ r2 : Repository, Memory.GetTest r2 x = none →
      Usecase.ensureTeacherOwnsTest r2 t2 x = some .testNotFound) ∧
    Err.forbiddenTeacher ≠ Err.testNotFound := by
  have hens : Usecase.ensureTeacherOwnsTest r t2 x = some .forbiddenTeacher := by
    unfold Usecase.ensureTeacherOwnsTest
    simp [htest, hne]
  refine ⟨?_, ?_, ?_, ?_, ?_, by simp⟩
  · unfold Usecase.GetQuestionsForTeacher; rw [hens]
  · unfold Usecase.ListAnswersByTest; rw [hens]
  · unfold Usecase.ListResultsByTest; rw [hens]
  · unfold Usecase.GradeAnswer; rw [hgt, hgx, hens]
  · intro r2 h2
    unfold Usecase.ensureTeacherOwnsTest
    rw [h2]

/-- Witness for C5: `teacher-2` does not own `t1`. -/
theorem teacher_scoped_ops_forbidden_witness :
    Usecase.GetQuestionsForTeacher repoT "teacher-2" "t1" = .error .forbiddenTeacher ∧
    Usecase.ListAnswersByTest repoT "teacher-2" "t1" = .error .forbiddenTeacher ∧
    Usecase.ListResultsByTest repoT "teacher-2" "t1" = .error .forbiddenTeacher ∧
    Usecase.GradeAnswer repoT
      { TeacherID := "teacher-2", TestID := "t1", QuestionID := "q1",
        StudentID := "s1", Score := 1, Feedback := "", Completed := false }
      "r-1" 9 = (.error .forbiddenTeacher, repoT) ∧
    (∀ r2 : Repository, Memory.GetTest r2 "t1" = none →
      Usecase.ensureTeacherOwnsTest r2 "teacher-2" "t1" = some .testNotFound) ∧
    Err.forbiddenTeacher ≠ Err.testNotFound :=
  teacher_scoped_ops_forbidden repoT "teacher-2" "t1"
    { testC with AssignedTo := ["s1", "s2"] }
    { TeacherID := "teacher-2", TestID := "t1", QuestionID := "q1",
      StudentID := "s1", Score := 1, Feedback := "", Completed := false }
    "r-1" 9 (by decide) (by decide) rfl rfl

/-- Claim C10: the Index Store's `UpsertAnswer` enforces no uniqueness on
the (test, question, student) triple and never removes a stored answer:
after upserting two answers with distinct ids but the same triple, both
remain stored and both are returned by `ListAnswersByTest`, while
`GetAnswer` on the triple returns only the most recently upserted one. -/
theorem upsertAnswer_no_triple_uniqueness (r : Repository) (a1 a2 : Answer)
    (hid : a1.ID ≠ a2.ID) (ht : a2.TestID = a1.TestID)
    (hq : a2.QuestionID = a1.QuestionID) (hs : a2.StudentID = a1.StudentID) :
    alookup (Memory.UpsertAnswer (Memory.UpsertAnswer r a1) a2).answers a1.ID
      = some a1 ∧
    alookup (Memory.UpsertAnswer (Memory.UpsertAnswer r a1) a2).answers a2.ID
      = some a2 ∧
    Memory.GetAnswer (Memory.UpsertAnswer (Memory.UpsertAnswer r a1) a2)
      a1.TestID a1.QuestionID a1.StudentID = some a2 ∧
    a1 ∈ Memory.ListAnswersByTest (Memory.UpsertAnswer (Memory.UpsertAnswer r a1) a2)
      a1.TestID ∧
    a2 ∈ Memory.ListAnswersByTest (Memory.UpsertAnswer (Memory.UpsertAnswer r a1) a2)
      a1.TestID := by
  set r1 := Memory.UpsertAnswer r a1 with hr1
  set r2 := Memory.UpsertAnswer r1 a2 with hr2
  have hans2 : r2.answers = aset r1.answers a2.ID a2 := rfl
  have hans1 : r1.answers = aset r.answers a1.ID a1 := rfl
  have hl1 : alookup r2.answers a1.ID = some a1 := by
    rw [hans2, alookup_aset_ne _ _ _ _ hid, hans1, alookup_aset_self]
  have hl2 : alookup r2.answers a2.ID = some a2 := by
    rw [hans2, alookup_aset_self]
  have hkey : Memory.answerKey a2.TestID a2.QuestionID a2.StudentID
      = Memory.answerKey a1.TestID a1.QuestionID a1.StudentID := by
    rw [ht, hq, hs]
  have hidx : alookup r2.answerIndex
      (Memory.answerKey a1.TestID a1.QuestionID a1.StudentID) = some a2.ID := by
    show alookup (aset r1.answerIndex
      (Memory.answerKey a2.TestID a2.QuestionID a2.StudentID) a2.ID) _ = _
    rw [hkey, alookup_aset_self]
  have hget : Memory.GetAnswer r2 a1.TestID a1.QuestionID a1.StudentID = some a2 := by
    unfold Memory.GetAnswer
    rw [hidx]
    exact hl2
  have hbyt2 : alookup r2.answersByTest a1.TestID
      = some (setInsert (setInsert ((alookup r.answersByTest a1.TestID).getD [])
          a1.ID) a2.ID) := by
    show alookup (aset r1.answersByTest a2.TestID
      (setInsert ((alookup r1.answersByTest a2.TestID).getD []) a2.ID)) _ = _
    rw [ht, alookup_aset_self]
    show some (setInsert ((alookup (aset r.answersByTest a1.TestID
      (setInsert ((alookup r.answersByTest a1.TestID).getD []) a1.ID)) a1.TestID).getD [])
        a2.ID) = _
    rw [alookup_aset_self]
    rfl
  have hmem : ∀ a : Answer, a.ID ∈ setInsert (setInsert
      ((alookup r.answersByTest a1.TestID).getD []) a1.ID) a2.ID →
      alookup r2.answers a.ID = some a →
      a ∈ Memory.ListAnswersByTest r2 a1.TestID := by
    intro a hin hfound
    unfold Memory.ListAnswersByTest
    rw [hbyt2]
    have hperm := List.perm_insertionSort byAnswerCreated
      ((setInsert (setInsert ((alookup r.answersByTest a1.TestID).getD []) a1.ID)
        a2.ID).filterMap (fun aid => alookup r2.answers aid))
    refine hperm.mem_iff.mpr ?_
    exact List.mem_filterMap.mpr ⟨a.ID, hin, hfound⟩
  refine ⟨hl1, hl2, hget, ?_, ?_⟩
  · exact hmem a1 ((mem_setInsert _ _ _).mpr (Or.inl ((mem_setInsert _ _ _).mpr
      (Or.inr rfl)))) hl1
  · exact hmem a2 ((mem_setInsert _ _ _).mpr (Or.inr rfl)) hl2

/-- Witness for C10: two answers `a-1`, `a-2` for the same
(`t1`, `q1`, `s1`) triple both stay stored. -/
theorem upsertAnswer_no_triple_uniqueness_witness :
    alookup (Memory.UpsertAnswer (Memory.UpsertAnswer repoT a1C) a2C).answers a1C.ID
      = some a1C ∧
    alookup (Memory.UpsertAnswer (Memory.UpsertAnswer repoT a1C) a2C).answers a2C.ID
      = some a2C ∧
    Memory.GetAnswer (Memory.UpsertAnswer (Memory.UpsertAnswer repoT a1C) a2C)
      a1C.TestID a1C.QuestionID a1C.StudentID = some a2C ∧
    a1C ∈ Memory.ListAnswersByTest
      (Memory.UpsertAnswer (Memory.UpsertAnswer repoT a1C) a2C) a1C.TestID ∧
    a2C ∈ Memory.ListAnswersByTest
      (Memory.UpsertAnswer (Memory.UpsertAnswer repoT a1C) a2C) a1C.TestID :=
  upsertAnswer_no_triple_uniqueness repoT a1C a2C (by decide) rfl rfl rfl

/-- Claim C9 counterexample: an answer whose response text is empty is NOT
rejected by `SubmitAnswer` — in the seeded store with test `t1`, student
`s1` assigned and question `q1` present, submitting an empty-response
answer succeeds and stores it. -/
theorem submitAnswer_empty_response_accepted :
    (Usecase.SubmitAnswer repoT (some emptyAnsC) "a-9" 7).1
      = .ok { emptyAnsC with ID := "a-9", CreatedAt := 7, UpdatedAt := 7 } ∧
    alookup (Usecase.SubmitAnswer repoT (some emptyAnsC) "a-9" 7).2.answers "a-9"
      = some { emptyAnsC with ID := "a-9", CreatedAt := 7, UpdatedAt := 7 } ∧
    emptyAnsC.Response = "" := by
  refine ⟨?_, ?_, rfl⟩ <;> rfl

/-- Claim C9 amended: `SubmitAnswer` raises the Validation error
(`ErrInvalidAnswer`) and stores nothing exactly when the answer payload is
absent (the nil pointer); an answer whose response text is empty passes
validation, and when the student exists, is assigned, and the question
belongs to the test, it is stored unchanged. -/
theorem submitAnswer_validation_amended (r : Repository) (a : Answer)
    (fresh : String) (now : Time)
    (hstud : (Memory.GetStudent r a.StudentID).isSome = true)
    (hassign : Memory.IsStudentAssigned r a.TestID a.StudentID = true)
    (hquest : (Memory.ListQuestions r a.TestID).any
      (fun q => q.ID = a.QuestionID) = true)
    (hnoexist : Memory.GetAnswer r a.TestID a.QuestionID a.StudentID = none) :
    Usecase.SubmitAnswer r none fresh now = (.error .invalidAnswer, r) ∧
    Usecase.SubmitAnswer r (some a) fresh now
      = (.ok { a with ID := fresh, CreatedAt := now, UpdatedAt := now },
         Memory.UpsertAnswer r
           { a with ID := fresh, CreatedAt := now, UpdatedAt := now }) := by
  refine ⟨rfl, ?_⟩
  obtain ⟨stud, hstud'⟩ := Option.isSome_iff_exists.mp hstud
  unfold Usecase.SubmitAnswer
  simp [hstud', hassign, hquest, hnoexist]

/-- Witness for the amended C9 at the concrete store. -/
theorem submitAnswer_validation_amended_witness :
    Usecase.SubmitAnswer repoT none "a-9" 7 = (.error .invalidAnswer, repoT) ∧
    Usecase.SubmitAnswer repoT (some emptyAnsC) "a-9" 7
      = (.ok { emptyAnsC with ID := "a-9", CreatedAt := 7, UpdatedAt := 7 },
         Memory.UpsertAnswer repoT
           { emptyAnsC with ID := "a-9", CreatedAt := 7, UpdatedAt := 7 }) :=
  submitAnswer_validation_amended repoT emptyAnsC "a-9" 7
    (by decide) (by decide) (by decide) (by decide)

/-- Claim C7: for each mutating operation of the durable repository, when
the in-memory mutation succeeds but the snapshot write fails, the caller
gets an error (`infra`) while the delegate keeps the applied mutation (no
rollback) and the on-disk snapshot stays what it was; a subsequent
in-process read observes the mutation. -/
theorem filedb_failed_persist_no_rollback :
    (∀ (fr : FileDB.FileRepo) (test : Test) (questions : List Question)
        (studentIDs : List StudentID) (d' : Repository),
      Memory.CreateTest fr.delegate test questions studentIDs = (none, d') →
      FileDB.CreateTest fr false test questions studentIDs
          = (some .infra, { delegate := d', disk := fr.disk }) ∧
        Memory.GetTest d' test.ID = some { test with AssignedTo := studentIDs }) ∧
    (∀ (fr : FileDB.FileRepo) (test : Test) (d' : Repository),
      Memory.UpdateTest fr.delegate test = (none, d') →
      FileDB.UpdateTest fr false test
          = (some .infra, { delegate := d', disk := fr.disk }) ∧
        Memory.GetTest d' test.ID = some test) ∧
    (∀ (fr : FileDB.FileRepo) (a : Answer),
      FileDB.UpsertAnswer fr false a
          = (some .infra,
             { delegate := Memory.UpsertAnswer fr.delegate a, disk := fr.disk }) ∧
        Memory.GetAnswer (Memory.UpsertAnswer fr.delegate a)
          a.TestID a.QuestionID a.StudentID = some a) ∧
    (∀ (fr : FileDB.FileRepo) (res : Result),
      FileDB.SaveResult fr false res
          = (some .infra,
             { delegate := Memory.SaveResult fr.delegate res, disk := fr.disk }) ∧
        Memory.GetResult (Memory.SaveResult fr.delegate res) res.AnswerID
          = some res) := by
  refine ⟨?_, ?_, ?_, ?_⟩
  · intro fr test questions studentIDs d' h
    constructor
    · unfold FileDB.CreateTest
      rw [h]
      rfl
    · obtain ⟨hshape, -, -, -⟩ :=
        createTest_ok_shape fr.delegate test questions studentIDs d' h
      rw [hshape]
      show alookup (aset fr.delegate.tests test.ID
        { test with AssignedTo := studentIDs }) test.ID = _
      rw [alookup_aset_self]
  · intro fr test d' h
    constructor
    · unfold FileDB.UpdateTest
      rw [h]
      rfl
    · unfold Memory.UpdateTest at h
      by_cases h1 : hasKey fr.delegate.tests test.ID
      · simp only [h1, Bool.not_true, Bool.false_eq_true, if_false,
          Prod.mk.injEq, true_and] at h
        rw [← h]
        show alookup (aset fr.delegate.tests test.ID test) test.ID = _
        rw [alookup_aset_self]
      · simp [h1] at h
  · intro fr a
    refine ⟨rfl, ?_⟩
    unfold Memory.GetAnswer
    show (match alookup (aset fr.delegate.answerIndex
      (Memory.answerKey a.TestID a.QuestionID a.StudentID) a.ID)
      (Memory.answerKey a.TestID a.QuestionID a.StudentID) with
      | none => none
      | some ansID => alookup (Memory.UpsertAnswer fr.delegate a).answers ansID) = _
    rw [alookup_aset_self]
    show alookup (aset fr.delegate.answers a.ID a) a.ID = _
    rw [alookup_aset_self]
  · intro fr res
    refine ⟨rfl, ?_⟩
    unfold Memory.GetResult
    show (match alookup (aset fr.delegate.resultByAnswer res.AnswerID res.ID)
      res.AnswerID with
      | none => none
      | some resultID => alookup (Memory.SaveResult fr.delegate res).results resultID) = _
    rw [alookup_aset_self]
    show alookup (aset fr.delegate.results res.ID res) res.ID = _
    rw [alookup_aset_self]

/-- Witness for C7: a failed persist of `CreateTest`, `UpdateTest`,
`UpsertAnswer` and `SaveResult` on the seeded durable store. -/
theorem filedb_failed_persist_no_rollback_witness :
    (FileDB.CreateTest fileRepoC false testC questionsC ["s1", "s2"]
        = (some .infra,
           { delegate := (Memory.CreateTest fileRepoC.delegate testC questionsC
              ["s1", "s2"]).2, disk := fileRepoC.disk }) ∧
      Memory.GetTest (Memory.CreateTest fileRepoC.delegate testC questionsC
        ["s1", "s2"]).2 testC.ID = some { testC with AssignedTo := ["s1", "s2"] }) ∧
    (FileDB.UpsertAnswer fileRepoC false a1C
        = (some .infra,
           { delegate := Memory.UpsertAnswer fileRepoC.delegate a1C,
             disk := fileRepoC.disk }) ∧
      Memory.GetAnswer (Memory.UpsertAnswer fileRepoC.delegate a1C)
        a1C.TestID a1C.QuestionID a1C.StudentID = some a1C) :=
  ⟨filedb_failed_persist_no_rollback.1 fileRepoC testC questionsC ["s1", "s2"]
      (Memory.CreateTest fileRepoC.delegate testC questionsC ["s1", "s2"]).2
      (by decide),
   filedb_failed_persist_no_rollback.2.2.1 fileRepoC a1C⟩


/-- Claim C1: in a context where the student exists, is assigned to the
test, and the question belongs to the test, submitting the same
(test, question, student) answer twice leaves exactly one stored answer
for the triple; the second call returns an answer with the first call's
identifier and creation timestamp, differing only in update timestamp and
response text. -/
theorem submitAnswer_idempotent (r0 : Repository) (a1 a2 : Answer)
    (f1 f2 : String) (now1 now2 : Time)
    (hstud : (Memory.GetStudent r0 a1.StudentID).isSome = true)
    (hassign : Memory.IsStudentAssigned r0 a1.TestID a1.StudentID = true)
    (hquest : (Memory.ListQuestions r0 a1.TestID).any
      (fun q => q.ID = a1.QuestionID) = true)
    (hsameT : a2.TestID = a1.TestID) (hsameQ : a2.QuestionID = a1.QuestionID)
    (hsameS : a2.StudentID = a1.StudentID)
    (hfresh : alookup r0.answers f1 = none)
    (hnoexist : Memory.GetAnswer r0 a1.TestID a1.QuestionID a1.StudentID = none)
    (hcount : countAnswersFor r0 a1.TestID a1.QuestionID a1.StudentID = 0) :
    ∃ stored1 r1 stored2 r2,
      Usecase.SubmitAnswer r0 (some a1) f1 now1 = (.ok stored1, r1) ∧
      Usecase.SubmitAnswer r1 (some a2) f2 now2 = (.ok stored2, r2) ∧
      stored2.ID = stored1.ID ∧
      stored2.CreatedAt = stored1.CreatedAt ∧
      stored2 = { stored1 with UpdatedAt := now2, Response := a2.Response } ∧
      countAnswersFor r2 a1.TestID a1.QuestionID a1.StudentID = 1 ∧
      alookup r2.answers stored1.ID = some stored2 := by
  obtain ⟨stud, hs0⟩ := Option.isSome_iff_exists.mp hstud
  refine ⟨{ a1 with ID := f1, CreatedAt := now1, UpdatedAt := now1 },
    Memory.UpsertAnswer r0 { a1 with ID := f1, CreatedAt := now1, UpdatedAt := now1 },
    { a2 with ID := f1, CreatedAt := now1, UpdatedAt := now2 },
    Memory.UpsertAnswer
      (Memory.UpsertAnswer r0 { a1 with ID := f1, CreatedAt := now1, UpdatedAt := now1 })
      { a2 with ID := f1, CreatedAt := now1, UpdatedAt := now2 },
    ?_, ?_, rfl, rfl, ?_, ?_, ?_⟩
  case _ =>
    unfold Usecase.SubmitAnswer
    simp [hs0, hassign, hquest, hnoexist]
  case _ =>
    have hget1 : Memory.GetAnswer
        (Memory.UpsertAnswer r0 { a1 with ID := f1, CreatedAt := now1, UpdatedAt := now1 })
        a2.TestID a2.QuestionID a2.StudentID
        = some { a1 with ID := f1, CreatedAt := now1, UpdatedAt := now1 } := by
      rw [hsameT, hsameQ, hsameS]
      unfold Memory.GetAnswer
      show (match alookup (aset r0.answerIndex
        (Memory.answerKey a1.TestID a1.QuestionID a1.StudentID) f1)
        (Memory.answerKey a1.TestID a1.QuestionID a1.StudentID) with
        | none => none
        | some ansID => alookup (Memory.UpsertAnswer r0
            { a1 with ID := f1, CreatedAt := now1, UpdatedAt := now1 }).answers ansID)
        = _
      rw [alookup_aset_self]
      show alookup (aset r0.answers f1
        { a1 with ID := f1, CreatedAt := now1, UpdatedAt := now1 }) f1 = _
      rw [alookup_aset_self]
    have hstud1 : Memory.GetStudent
        (Memory.UpsertAnswer r0 { a1 with ID := f1, CreatedAt := now1, UpdatedAt := now1 })
        a2.StudentID = some stud := by
      rw [hsameS]; exact hs0
    have hassign1 : Memory.IsStudentAssigned
        (Memory.UpsertAnswer r0 { a1 with ID := f1, CreatedAt := now1, UpdatedAt := now1 })
        a2.TestID a2.StudentID = true := by
      rw [hsameT, hsameS]; exact hassign
    have hquest1 : (Memory.ListQuestions
        (Memory.UpsertAnswer r0 { a1 with ID := f1, CreatedAt := now1, UpdatedAt := now1 })
        a2.TestID).any (fun q => q.ID = a2.QuestionID) = true := by
      rw [hsameT, hsameQ]; exact hquest
    unfold Usecase.SubmitAnswer
    simp [hstud1, hassign1, hquest1, hget1]
  case _ =>
    cases a1
    cases a2
    simp only [Answer.mk.injEq] at hsameT hsameQ hsameS ⊢
    simp_all
  case _ =>
    have hans1 : (Memory.UpsertAnswer r0
        { a1 with ID := f1, CreatedAt := now1, UpdatedAt := now1 }).answers
        = r0.answers ++ [(f1, { a1 with ID := f1, CreatedAt := now1, UpdatedAt := now1 })] :=
      aset_of_lookup_none r0.answers f1 _ hfresh
    have hans2 : (Memory.UpsertAnswer
        (Memory.UpsertAnswer r0 { a1 with ID := f1, CreatedAt := now1, UpdatedAt := now1 })
        { a2 with ID := f1, CreatedAt := now1, UpdatedAt := now2 }).answers
        = r0.answers ++ [(f1, { a2 with ID := f1, CreatedAt := now1, UpdatedAt := now2 })] := by
      show aset (Memory.UpsertAnswer r0
        { a1 with ID := f1, CreatedAt := now1, UpdatedAt := now1 }).answers f1
        { a2 with ID := f1, CreatedAt := now1, UpdatedAt := now2 } = _
      rw [hans1]
      exact aset_append_single r0.answers f1 _ _ hfresh
    unfold countAnswersFor at hcount ⊢
    rw [hans2, List.countP_append, hcount]
    simp [List.countP_cons, hsameT, hsameQ, hsameS]
  case _ =>
    show alookup (aset (Memory.UpsertAnswer r0
      { a1 with ID := f1, CreatedAt := now1, UpdatedAt := now1 }).answers f1
      { a2 with ID := f1, CreatedAt := now1, UpdatedAt := now2 }) f1 = _
    rw [alookup_aset_self]

/-- Witness for C1: submitting for (`t1`, `q1`, `s1`) twice on the seeded
store. -/
theorem submitAnswer_idempotent_witness :
    ∃ stored1 r1 stored2 r2,
      Usecase.SubmitAnswer repoT (some a1C) "a-10" 4 = (.ok stored1, r1) ∧
      Usecase.SubmitAnswer r1 (some a2C) "a-11" 5 = (.ok stored2, r2) ∧
      stored2.ID = stored1.ID ∧
      stored2.CreatedAt = stored1.CreatedAt ∧
      stored2 = { stored1 with UpdatedAt := 5, Response := a2C.Response } ∧
      countAnswersFor r2 a1C.TestID a1C.QuestionID a1C.StudentID = 1 ∧
      alookup r2.answers stored1.ID = some stored2 :=
  submitAnswer_idempotent repoT a1C a2C "a-10" "a-11" 4 5
    (by decide) (by decide) (by decide) rfl rfl rfl
    (by decide) (by decide) (by decide)



/-- Claim C6: re-grading an answer that already has a stored result
leaves exactly one stored result for that answer; the returned result
keeps the existing result's identifier and creation timestamp, while
score, feedback, completed and the update timestamp reflect the latest
call. -/
theorem gradeAnswer_idempotent (r : Repository) (gin : Usecase.GradeInput)
    (fresh : String) (now : Time) (test : Test) (answer : Answer) (res0 : Result)
    (htest : Memory.GetTest r gin.TestID = some test)
    (hteach : test.TeacherID = gin.TeacherID)
    (hassign : Memory.IsStudentAssigned r gin.TestID gin.StudentID = true)
    (hans : Memory.GetAnswer r gin.TestID gin.QuestionID gin.StudentID = some answer)
    (hrid : alookup r.resultByAnswer answer.ID = some res0.ID)
    (hres : alookup r.results res0.ID = some res0)
    (hresAns : res0.AnswerID = answer.ID)
    (hcount : countResultsFor r answer.ID = 1) :
    Usecase.GradeAnswer r gin fresh now
      = (.ok (regraded res0 gin now), Memory.SaveResult r (regraded res0 gin now)) ∧
    (regraded res0 gin now).ID = res0.ID ∧
    (regraded res0 gin now).CreatedAt = res0.CreatedAt ∧
    countResultsFor (Memory.SaveResult r (regraded res0 gin now)) answer.ID = 1 ∧
    Memory.GetResult (Memory.SaveResult r (regraded res0 gin now)) answer.ID
      = some (regraded res0 gin now) := by
  have hens : Usecase.ensureTeacherOwnsTest r gin.TeacherID gin.TestID = none := by
    unfold Usecase.ensureTeacherOwnsTest
    simp [htest, hteach]
  have hgetres : Memory.GetResult r answer.ID = some res0 := by
    unfold Memory.GetResult
    rw [hrid]
    exact hres
  obtain ⟨l1, l2, hsplit, -, hset⟩ := alookup_split r.results res0.ID res0 hres
  refine ⟨?_, rfl, rfl, ?_, ?_⟩
  · unfold Usecase.GradeAnswer
    simp [hens, hassign, hans, hgetres, regraded]
  · have hpost : (Memory.SaveResult r (regraded res0 gin now)).results
        = l1 ++ (res0.ID, regraded res0 gin now) :: l2 :=
      hset (regraded res0 gin now)
    unfold countResultsFor at hcount ⊢
    rw [hsplit, List.countP_append, List.countP_cons] at hcount
    rw [hpost, List.countP_append, List.countP_cons]
    have hup : (regraded res0 gin now).AnswerID = answer.ID := hresAns
    simp only [hresAns, hup, decide_True, decide_eq_true_eq] at hcount ⊢
    simp at hcount ⊢
    omega
  · unfold Memory.GetResult
    show (match alookup (aset r.resultByAnswer (regraded res0 gin now).AnswerID
        (regraded res0 gin now).ID) answer.ID with
      | none => none
      | some resultID =>
          alookup (Memory.SaveResult r (regraded res0 gin now)).results resultID) = _
    have hup : (regraded res0 gin now).AnswerID = answer.ID := hresAns
    rw [hup, alookup_aset_self]
    show alookup (aset r.results (regraded res0 gin now).ID (regraded res0 gin now))
      (regraded res0 gin now).ID = _
    rw [alookup_aset_self]

/-- Witness for C6: re-grading `a-1` on the store where it was graded
once. -/
theorem gradeAnswer_idempotent_witness :
    Usecase.GradeAnswer repoR ginC "r-2" 8
      = (.ok (regraded res0C ginC 8), Memory.SaveResult repoR (regraded res0C ginC 8)) ∧
    (regraded res0C ginC 8).ID = res0C.ID ∧
    (regraded res0C ginC 8).CreatedAt = res0C.CreatedAt ∧
    countResultsFor (Memory.SaveResult repoR (regraded res0C ginC 8)) a1C.ID = 1 ∧
    Memory.GetResult (Memory.SaveResult repoR (regraded res0C ginC 8)) a1C.ID
      = some (regraded res0C ginC 8) :=
  gradeAnswer_idempotent repoR ginC "r-2" 8
    { testC with AssignedTo := ["s1", "s2"] } a1C res0C
    (by decide) rfl (by decide) (by decide) (by decide) (by decide) rfl (by decide)


/-- After a successful `CreateTest` whose questions have pairwise distinct
ids and strictly increasing sequences, `ListQuestions` returns exactly the
inserted questions, and it would return them for ANY internal ordering of
the stored question-id list. -/
theorem listQuestions_after_create (r r' : Repository) (test : Test)
    (qs : List Question) (sids : List StudentID)
    (hok : Memory.CreateTest r test qs sids = (none, r'))
    (hnodup : (qs.map (·.ID)).Nodup)
    (hsorted : qs.Pairwise byQuestionSeqLt) :
    Memory.ListQuestions r' test.ID = qs ∧
    (∀ ids' : List QuestionID, ids'.Perm (qs.map (·.ID)) →
      List.insertionSort byQuestionSeq
        (ids'.filterMap (fun qid => alookup r'.questions qid)) = qs) := by
  obtain ⟨hshape, -, -, -⟩ := createTest_ok_shape r test qs sids r' hok
  have hlookupQ : ∀ q ∈ qs, alookup r'.questions q.ID = some q := by
    intro q hq
    rw [hshape]
    exact foldl_aset_lookup_unique qs (·.ID) (fun q => q) q.ID q rfl r.questions hq
      (fun q' hq' hid => List.inj_on_of_nodup_map hnodup hq' hq hid)
  have hfm : (qs.map (·.ID)).filterMap (fun qid => alookup r'.questions qid) = qs :=
    filterMap_map_eq qs (·.ID) _ hlookupQ
  have htq : alookup r'.testQuestions test.ID = some (qs.map (·.ID)) := by
    rw [hshape]
    exact alookup_aset_self r.testQuestions test.ID (qs.map (·.ID))
  constructor
  · unfold Memory.ListQuestions
    rw [htq]
    show List.insertionSort byQuestionSeq
      ((qs.map (·.ID)).filterMap (fun qid => alookup r'.questions qid)) = qs
    rw [hfm]
    exact insertionSort_eq_of_perm_of_sorted qs qs (List.Perm.refl qs) hsorted
  · intro ids' hperm
    have hpm : (ids'.filterMap (fun qid => alookup r'.questions qid)).Perm qs := by
      have := hperm.filterMap (fun qid => alookup r'.questions qid)
      rwa [hfm] at this
    exact insertionSort_eq_of_perm_of_sorted qs _ hpm hsorted

/-- Claim C4: a test created from N drafts with non-empty prompts gets
questions numbered 1..N in input order, and `ListQuestions` returns them
in exactly that order — and would do so for any internal storage order of
the question-id list. -/
theorem createTest_question_order (r : Repository) (input : Usecase.CreateTestInput)
    (gen : Nat → String) (now : Time)
    (hTitle : ¬ input.Title = "")
    (hNonEmpty : ¬ input.Questions.length = 0)
    (hteacher : (Memory.GetTeacher r input.TeacherID).isSome = true)
    (hstudents : ∀ sid ∈ input.StudentIDs, (Memory.GetStudent r sid).isSome = true)
    (hprompts : ∀ q ∈ input.Questions, ¬ q.Prompt = "")
    (hTfresh : hasKey r.tests (gen 0) = false)
    (hgenInj : ∀ i j, i ≤ input.Questions.length → j ≤ input.Questions.length →
      gen i = gen j → i = j) :
    ∃ test qs r',
      Usecase.CreateTest r input gen now = (.ok (test, qs), r') ∧
      qs.map (·.Sequence) = List.range' 1 input.Questions.length ∧
      qs.map (·.Prompt) = input.Questions.map (·.Prompt) ∧
      Memory.ListQuestions r' test.ID = qs ∧
      (∀ ids' : List QuestionID, ids'.Perm (qs.map (·.ID)) →
        List.insertionSort byQuestionSeq
          (ids'.filterMap (fun qid => alookup r'.questions qid)) = qs) := by
  obtain ⟨teacher, hteacher'⟩ := Option.isSome_iff_exists.mp hteacher
  have hanyStud : (input.StudentIDs.any fun sid => (Memory.GetStudent r sid).isNone)
      = false := by
    rw [List.any_eq_false]
    intro sid hsid
    obtain ⟨st, hst⟩ := Option.isSome_iff_exists.mp (hstudents sid hsid)
    simp [hst]
  have hanyPrompt : (input.Questions.any fun q => q.Prompt = "") = false := by
    rw [List.any_eq_false]
    intro q hq
    simpa using hprompts q hq
  have h2 : hasKey r.teachers input.TeacherID = true := by
    unfold hasKey
    show (Memory.GetTeacher r input.TeacherID).isSome = true
    exact hteacher
  have h3 : (input.StudentIDs.any fun sid => !hasKey r.students sid) = false := by
    rw [List.any_eq_false]
    intro sid hsid
    obtain ⟨st, hst⟩ := Option.isSome_iff_exists.mp (hstudents sid hsid)
    have hst' : alookup r.students sid = some st := hst
    simp [hasKey, hst']
  have hfst : (Memory.CreateTest r
      { ID := gen 0, TeacherID := input.TeacherID, Title := input.Title,
        Published := false, CreatedAt := now, UpdatedAt := now, AssignedTo := [] }
      (input.Questions.enum.map (fun iq =>
        { ID := gen (iq.1 + 1), TestID := gen 0, Sequence := iq.1 + 1,
          Prompt := iq.2.Prompt, Points := iq.2.Points, CreatedAt := now }))
      input.StudentIDs).1 = none := by
    unfold Memory.CreateTest
    simp [hTfresh, h2, h3]
  have hmem : Memory.CreateTest r
      { ID := gen 0, TeacherID := input.TeacherID, Title := input.Title,
        Published := false, CreatedAt := now, UpdatedAt := now, AssignedTo := [] }
      (input.Questions.enum.map (fun iq =>
        { ID := gen (iq.1 + 1), TestID := gen 0, Sequence := iq.1 + 1,
          Prompt := iq.2.Prompt, Points := iq.2.Points, CreatedAt := now }))
      input.StudentIDs
      = (none, (Memory.CreateTest r
          { ID := gen 0, TeacherID := input.TeacherID, Title := input.Title,
            Published := false, CreatedAt := now, UpdatedAt := now, AssignedTo := [] }
          (input.Questions.enum.map (fun iq =>
            { ID := gen (iq.1 + 1), TestID := gen 0, Sequence := iq.1 + 1,
              Prompt := iq.2.Prompt, Points := iq.2.Points, CreatedAt := now }))
          input.StudentIDs).2) := by
    rw [← hfst]
  have hidmap : (input.Questions.enum.map (fun iq =>
      ({ ID := gen (iq.1 + 1), TestID := gen 0, Sequence := iq.1 + 1,
         Prompt := iq.2.Prompt, Points := iq.2.Points, CreatedAt := now } : Question))).map
      (·.ID) = (List.range input.Questions.length).map (fun i => gen (i + 1)) := by
    rw [List.map_map, ← List.enum_map_fst input.Questions, List.map_map]
    rfl
  have hnodup : ((input.Questions.enum.map (fun iq =>
      ({ ID := gen (iq.1 + 1), TestID := gen 0, Sequence := iq.1 + 1,
         Prompt := iq.2.Prompt, Points := iq.2.Points, CreatedAt := now } : Question))).map
      (·.ID)).Nodup := by
    rw [hidmap]
    refine List.Nodup.map_on ?_ (List.nodup_range input.Questions.length)
    intro i hi j hj hij
    have hi' := List.mem_range.mp hi
    have hj' := List.mem_range.mp hj
    have := hgenInj (i + 1) (j + 1) (Nat.succ_le_of_lt hi') (Nat.succ_le_of_lt hj') hij
    omega
  have hseqmap : (input.Questions.enum.map (fun iq =>
      ({ ID := gen (iq.1 + 1), TestID := gen 0, Sequence := iq.1 + 1,
         Prompt := iq.2.Prompt, Points := iq.2.Points, CreatedAt := now } : Question))).map
      (·.Sequence) = List.range' 1 input.Questions.length := by
    rw [List.map_map, List.range'_eq_map_range, ← List.enum_map_fst input.Questions,
      List.map_map]
    refine List.map_congr_left ?_
    intro iq _
    show iq.1 + 1 = 1 + iq.1
    omega
  have hsorted : (input.Questions.enum.map (fun iq =>
      ({ ID := gen (iq.1 + 1), TestID := gen 0, Sequence := iq.1 + 1,
         Prompt := iq.2.Prompt, Points := iq.2.Points, CreatedAt := now } : Question))).Pairwise
      byQuestionSeqLt := by
    have hlt : ((input.Questions.enum.map (fun iq =>
        ({ ID := gen (iq.1 + 1), TestID := gen 0, Sequence := iq.1 + 1,
           Prompt := iq.2.Prompt, Points := iq.2.Points, CreatedAt := now } : Question))).map
        (·.Sequence)).Pairwise (· < ·) := by
      rw [hseqmap]
      exact List.pairwise_lt_range' 1 input.Questions.length
    rw [List.pairwise_map] at hlt
    exact hlt
  obtain ⟨rr, hmemo⟩ : ∃ rr, Memory.CreateTest r
      { ID := gen 0, TeacherID := input.TeacherID, Title := input.Title,
        Published := false, CreatedAt := now, UpdatedAt := now, AssignedTo := [] }
      (input.Questions.enum.map (fun iq =>
        { ID := gen (iq.1 + 1), TestID := gen 0, Sequence := iq.1 + 1,
          Prompt := iq.2.Prompt, Points := iq.2.Points, CreatedAt := now }))
      input.StudentIDs = (none, rr) := ⟨_, hmem⟩
  obtain ⟨hlist, hany⟩ := listQuestions_after_create r _ _ _ _ hmemo hnodup hsorted
  refine ⟨{ ID := gen 0, TeacherID := input.TeacherID, Title := input.Title,
            Published := false, CreatedAt := now, UpdatedAt := now,
            AssignedTo := input.StudentIDs }, _, rr, ?_, hseqmap, ?_, ?_, ?_⟩
  · unfold Usecase.CreateTest
    simp only [hTitle, hNonEmpty, hteacher', hanyStud, hanyPrompt, hmemo,
      if_false, ite_false, Bool.false_eq_true]
  · rw [List.map_map]
    rw [show ((fun q : Question => q.Prompt) ∘ (fun iq : Nat × Usecase.QuestionDraft =>
      ({ ID := gen (iq.1 + 1), TestID := gen 0, Sequence := iq.1 + 1,
         Prompt := iq.2.Prompt, Points := iq.2.Points, CreatedAt := now } : Question)))
      = ((fun q : Usecase.QuestionDraft => q.Prompt) ∘ Prod.snd) from rfl]
    rw [← List.map_map, List.enum_map_snd]
  · exact hlist
  · exact hany


/-- Witness for C4: creating a three-question test on the seeded store. -/
theorem createTest_question_order_witness :
    ∃ test qs r',
      Usecase.CreateTest repoC inputC genC 3 = (.ok (test, qs), r') ∧
      qs.map (·.Sequence) = List.range' 1 inputC.Questions.length ∧
      qs.map (·.Prompt) = inputC.Questions.map (·.Prompt) ∧
      Memory.ListQuestions r' test.ID = qs ∧
      (∀ ids' : List QuestionID, ids'.Perm (qs.map (·.ID)) →
        List.insertionSort byQuestionSeq
          (ids'.filterMap (fun qid => alookup r'.questions qid)) = qs) :=
  createTest_question_order repoC inputC genC 3 (by decide) (by decide)
    (by decide) (by decide) (by decide) (by decide)
    (by
      intro i j hi hj
      have hi3 : i ≤ 3 := hi
      have hj3 : j ≤ 3 := hj
      clear hi hj
      interval_cases i <;> interval_cases j <;> decide)


/-- Membership in the student→tests index after the `CreateTest` loop over
the assigned students. -/
theorem mem_studentTestsFold (sids : List StudentID) (T : TestID)
    (m0 : AList StudentID (List TestID)) (s : StudentID) (tid : TestID) :
    tid ∈ (alookup (sids.foldl (fun m sid => aset m sid
      (setInsert ((alookup m sid).getD []) T)) m0) s).getD []
    ↔ tid ∈ (alookup m0 s).getD [] ∨ (s ∈ sids ∧ tid = T) := by
  induction sids generalizing m0 with
  | nil => simp
  | cons hd tl ih =>
      simp only [List.foldl_cons]
      rw [ih]
      by_cases hs : hd = s
      · subst hs
        rw [alookup_aset_self]
        simp only [Option.getD_some, mem_setInsert, List.mem_cons, true_or,
          eq_self_iff_true, true_and]
        tauto
      · have hsne : ¬ s = hd := fun he => hs he.symm
        rw [alookup_aset_ne m0 hd s _ hsne]
        simp only [List.mem_cons, hsne, false_or]

/-- `ListTestsForStudent` in terms of the two index lookups, with the
absent case folded into `getD`. -/
theorem listTestsForStudent_eq_getD (r : Repository) (s : StudentID) :
    Memory.ListTestsForStudent r s
      = List.insertionSort byTestCreated
          (((alookup r.studentTests s).getD []).filterMap
            (fun tid => alookup r.tests tid)) := by
  unfold Memory.ListTestsForStudent
  cases alookup r.studentTests s with
  | none => rfl
  | some refs => rfl

/-- The seeded store satisfies the store discipline. -/
theorem storeInv_newRepository (seed : SeedData) : StoreInv (NewRepository seed) := by
  refine ⟨?_, ?_, ?_⟩
  · intro tid t h
    simp [NewRepository, alookup] at h
  · intro tid sid h
    simp [NewRepository, assignedSet, alookup] at h
  · intro tid sid
    simp [NewRepository, assignedSet, studentTestSet, alookup]

/-- `CreateTest` preserves the store discipline. -/
theorem storeInv_createTest (r : Repository) (t : Test) (qs : List Question)
    (sids : List StudentID) (hinv : StoreInv r) :
    StoreInv (Memory.CreateTest r t qs sids).2 := by
  obtain ⟨hkeys, hlive, hagree⟩ := hinv
  by_cases h1 : hasKey r.tests t.ID
  · have hid : (Memory.CreateTest r t qs sids).2 = r := by
      unfold Memory.CreateTest
      simp [h1]
    rw [hid]
    exact ⟨hkeys, hlive, hagree⟩
  · by_cases h2 : hasKey r.teachers t.TeacherID
    · by_cases h3 : sids.any (fun sid => !hasKey r.students sid)
      · have hid : (Memory.CreateTest r t qs sids).2 = r := by
          unfold Memory.CreateTest
          simp [h1, h2, h3]
        rw [hid]
        exact ⟨hkeys, hlive, hagree⟩
      · have hres : (Memory.CreateTest r t qs sids).2 = { r with
            tests := aset r.tests t.ID { t with AssignedTo := sids }
            questions := qs.foldl (fun m q => aset m q.ID q) r.questions
            testQuestions := aset r.testQuestions t.ID (qs.map (·.ID))
            assignments := aset r.assignments t.ID
              (sids.foldl setInsert ((alookup r.assignments t.ID).getD []))
            studentTests := sids.foldl
              (fun m sid => aset m sid (setInsert ((alookup m sid).getD []) t.ID))
              r.studentTests } := by
          unfold Memory.CreateTest
          simp [h1, h2, h3]
        rw [hres]
        refine ⟨?_, ?_, ?_⟩
        · intro tid tv hv
          have hv' : alookup (aset r.tests t.ID { t with AssignedTo := sids }) tid
              = some tv := hv
          by_cases htid : tid = t.ID
          · rw [htid, alookup_aset_self] at hv'
            cases hv'
            exact htid.symm ▸ rfl
          · rw [alookup_aset_ne r.tests t.ID tid _ htid] at hv'
            exact hkeys tid tv hv'
        · intro tid sid hmem
          have hmem' : sid ∈ (alookup (aset r.assignments t.ID
              (sids.foldl setInsert ((alookup r.assignments t.ID).getD []))) tid).getD []
            := hmem
          show (alookup (aset r.tests t.ID { t with AssignedTo := sids }) tid).isSome
            = true
          by_cases htid : tid = t.ID
          · rw [htid, alookup_aset_self]
            rfl
          · rw [alookup_aset_ne r.tests t.ID tid _ htid]
            rw [alookup_aset_ne r.assignments t.ID tid _ htid] at hmem'
            exact hlive tid sid hmem'
        · intro tid sid
          show sid ∈ (alookup (aset r.assignments t.ID
              (sids.foldl setInsert ((alookup r.assignments t.ID).getD []))) tid).getD []
            ↔ tid ∈ (alookup (sids.foldl (fun m sid => aset m sid
              (setInsert ((alookup m sid).getD []) t.ID)) r.studentTests) sid).getD []
          rw [mem_studentTestsFold sids t.ID r.studentTests sid tid]
          have hag := hagree tid sid
          unfold assignedSet studentTestSet at hag
          by_cases htid : tid = t.ID
          · rw [htid, alookup_aset_self, Option.getD_some, foldl_setInsert_mem]
            rw [htid] at hag
            simp only [eq_self_iff_true, and_true]
            tauto
          · rw [alookup_aset_ne r.assignments t.ID tid _ htid]
            have hne : ¬ (sid ∈ sids ∧ tid = t.ID) := fun hc => htid hc.2
            tauto
    · have hid : (Memory.CreateTest r t qs sids).2 = r := by
        unfold Memory.CreateTest
        simp [h1, h2]
      rw [hid]
      exact ⟨hkeys, hlive, hagree⟩

/-- Every operation preserves the store discipline. -/
theorem storeInv_applyOp (r : Repository) (op : Op) (hinv : StoreInv r) :
    StoreInv (applyOp r op) := by
  obtain ⟨hkeys, hlive, hagree⟩ := hinv
  cases op with
  | createTest t qs sids => exact storeInv_createTest r t qs sids ⟨hkeys, hlive, hagree⟩
  | updateTest t =>
      show StoreInv (Memory.UpdateTest r t).2
      by_cases h1 : hasKey r.tests t.ID
      · have hres : (Memory.UpdateTest r t).2
            = { r with tests := aset r.tests t.ID t } := by
          unfold Memory.UpdateTest
          simp [h1]
        rw [hres]
        refine ⟨?_, ?_, hagree⟩
        · intro tid tv hv
          have hv' : alookup (aset r.tests t.ID t) tid = some tv := hv
          by_cases htid : tid = t.ID
          · rw [htid, alookup_aset_self] at hv'
            cases hv'
            exact htid.symm
          · rw [alookup_aset_ne r.tests t.ID tid _ htid] at hv'
            exact hkeys tid tv hv'
        · intro tid sid hmem
          exact hasKey_aset_of_hasKey r.tests t.ID tid _ (hlive tid sid hmem)
      · have hres : (Memory.UpdateTest r t).2 = r := by
          unfold Memory.UpdateTest
          simp [h1]
        rw [hres]
        exact ⟨hkeys, hlive, hagree⟩
  | upsertAnswer a => exact ⟨hkeys, hlive, hagree⟩
  | saveResult res => exact ⟨hkeys, hlive, hagree⟩

/-- The store discipline holds after any operation sequence from a seeded
store. -/
theorem storeInv_applyOps (ops : List Op) :
    ∀ r : Repository, StoreInv r → StoreInv (applyOps r ops) := by
  induction ops with
  | nil => exact fun r h => h
  | cons hd tl ih =>
      intro r h
      exact ih (applyOp r hd) (storeInv_applyOp r hd h)


/-- Claim C3: the two assignment views agree after every operation
sequence from a seeded store, and a test created with student set `sids`
is assigned exactly to those students: each `s ∈ sids` has
`IsStudentAssigned` true and sees the test in `ListTestsForStudent`; each
`s ∉ sids` has both false/absent. -/
theorem assignment_symmetry :
    (∀ (seed : SeedData) (ops : List Op),
      StoreInv (applyOps (NewRepository seed) ops)) ∧
    (∀ (r : Repository) (test : Test) (qs : List Question)
        (sids : List StudentID) (r' : Repository) (s : StudentID),
      StoreInv r → Memory.CreateTest r test qs sids = (none, r') →
      ((s ∈ sids → Memory.IsStudentAssigned r' test.ID s = true ∧
          (Memory.ListTestsForStudent r' s).any (fun tv => tv.ID = test.ID) = true) ∧
       (s ∉ sids → Memory.IsStudentAssigned r' test.ID s = false ∧
          (Memory.ListTestsForStudent r' s).any (fun tv => tv.ID = test.ID) = false))) := by
  constructor
  · intro seed ops
    exact storeInv_applyOps ops _ (storeInv_newRepository seed)
  · intro r test qs sids r' s hinv hok
    obtain ⟨hshape, hTfresh, -, -⟩ := createTest_ok_shape r test qs sids r' hok
    have hinv' : StoreInv r' := by
      have h := storeInv_createTest r test qs sids hinv
      rw [hok] at h
      exact h
    obtain ⟨hkeys, hlive, hagree⟩ := hinv
    obtain ⟨hkeys', -, -⟩ := hinv'
    have ha : r'.assignments = aset r.assignments test.ID
        (sids.foldl setInsert ((alookup r.assignments test.ID).getD [])) := by
      rw [hshape]
    have hstu : r'.studentTests = sids.foldl
        (fun m sid => aset m sid (setInsert ((alookup m sid).getD []) test.ID))
        r.studentTests := by
      rw [hshape]
    have htests : r'.tests = aset r.tests test.ID { test with AssignedTo := sids } := by
      rw [hshape]
    have hassign_iff : ∀ s' : StudentID,
        Memory.IsStudentAssigned r' test.ID s' = true
        ↔ (s' ∈ (alookup r.assignments test.ID).getD [] ∨ s' ∈ sids) := by
      intro s'
      unfold Memory.IsStudentAssigned
      rw [ha, alookup_aset_self]
      show decide (s' ∈ sids.foldl setInsert
        ((alookup r.assignments test.ID).getD [])) = true ↔ _
      rw [decide_eq_true_eq, foldl_setInsert_mem]
    have hmemT_iff : ∀ tid : TestID,
        tid ∈ (alookup r'.studentTests s).getD []
        ↔ tid ∈ (alookup r.studentTests s).getD [] ∨ (s ∈ sids ∧ tid = test.ID) := by
      intro tid
      rw [hstu]
      exact mem_studentTestsFold sids test.ID r.studentTests s tid
    constructor
    · intro hs
      constructor
      · exact (hassign_iff s).mpr (Or.inr hs)
      · rw [listTestsForStudent_eq_getD r' s]
        refine List.any_eq_true.mpr ?_
        refine ⟨{ test with AssignedTo := sids }, ?_, by simp⟩
        refine (List.perm_insertionSort byTestCreated _).mem_iff.mpr ?_
        refine List.mem_filterMap.mpr ⟨test.ID, ?_, ?_⟩
        · exact (hmemT_iff test.ID).mpr (Or.inr ⟨hs, rfl⟩)
        · rw [htests]
          exact alookup_aset_self r.tests test.ID _
    · intro hs
      constructor
      · refine Bool.eq_false_iff.mpr ?_
        intro htrue
        rcases (hassign_iff s).mp htrue with hmem | hmem
        · have := hlive test.ID s hmem
          rw [hTfresh] at this
          cases this
        · exact hs hmem
      · refine Bool.eq_false_iff.mpr ?_
        intro htrue
        rw [listTestsForStudent_eq_getD r' s] at htrue
        obtain ⟨tv, hmemS, hid⟩ := List.any_eq_true.mp htrue
        have hmemF : tv ∈ ((alookup r'.studentTests s).getD []).filterMap
            (fun tid => alookup r'.tests tid) :=
          (List.perm_insertionSort byTestCreated _).mem_iff.mp hmemS
        obtain ⟨tid0, htid0, hlook0⟩ := List.mem_filterMap.mp hmemF
        have hvid : tv.ID = tid0 := hkeys' tid0 tv hlook0
        have hvid' : tv.ID = test.ID := by
          simpa using hid
        have htid0eq : tid0 = test.ID := by
          rw [← hvid, hvid']
        rw [htid0eq] at htid0
        rcases (hmemT_iff test.ID).mp htid0 with hmem | ⟨hmem, -⟩
        · have hmem' : s ∈ assignedSet r test.ID :=
            (hagree test.ID s).mpr hmem
          have := hlive test.ID s hmem'
          rw [hTfresh] at this
          cases this
        · exact hs hmem


/-- Witness for C3: the seeded store after creating `t1` for `s1`, `s2`;
`s1` is assigned and sees the test, `s3` is not and does not. -/
theorem assignment_symmetry_witness :
    StoreInv (applyOps (NewRepository seedC)
      [Op.createTest testC questionsC ["s1", "s2"]]) ∧
    (("s1" : StudentID) ∈ (["s1", "s2"] : List StudentID) →
      Memory.IsStudentAssigned repoT testC.ID "s1" = true ∧
      (Memory.ListTestsForStudent repoT "s1").any (fun tv => tv.ID = testC.ID) = true) ∧
    (("s3" : StudentID) ∉ (["s1", "s2"] : List StudentID) →
      Memory.IsStudentAssigned repoT testC.ID "s3" = false ∧
      (Memory.ListTestsForStudent repoT "s3").any (fun tv => tv.ID = testC.ID) = false) :=
  ⟨assignment_symmetry.1 seedC [Op.createTest testC questionsC ["s1", "s2"]],
   (assignment_symmetry.2 repoC testC questionsC ["s1", "s2"] repoT "s1"
      (storeInv_newRepository seedC) (by decide)).1,
   (assignment_symmetry.2 repoC testC questionsC ["s1", "s2"] repoT "s3"
      (storeInv_newRepository seedC) (by decide)).2⟩


/-- A raw binding in the map means lookup of its key cannot be `none`. -/
theorem alookup_ne_none_of_mem [DecidableEq K] {m : AList K V} {k : K} {v : V}
    (h : (k, v) ∈ m) : alookup m k ≠ none := by
  induction m with
  | nil => cases h
  | cons hd tl ih =>
      rcases List.mem_cons.mp h with rfl | hmem
      · simp [alookup]
      · by_cases hk : hd.1 = k
        · simp [alookup, hk]
        · simpa [alookup, hk] using ih hmem

/-- Looking up past an appended single fresh binding with a different key. -/
theorem alookup_append_single_ne [DecidableEq K] (m : AList K V) (x k : K) (v : V)
    (h0 : alookup m x = none) (hne : x ≠ k) :
    alookup (m ++ [(k, v)]) x = none := by
  have hne' : ¬ k = x := fun he => hne he.symm
  induction m with
  | nil => simp [alookup, hne']
  | cons hd tl ih =>
      by_cases hk : hd.1 = x
      · simp [alookup, hk] at h0
      · simp only [alookup, hk, if_false] at h0
        simpa [alookup, hk] using ih h0

/-- A fold of insert-by-key over fresh, duplicate-free entries is an
append. -/
theorem foldl_aset_append [DecidableEq K] (L : List α) (key : α → K) (val : α → V) :
    ∀ m0 : AList K V, (∀ e ∈ L, alookup m0 (key e) = none) → (L.map key).Nodup →
    L.foldl (fun m e => aset m (key e) (val e)) m0
      = m0 ++ L.map (fun e => (key e, val e)) := by
  induction L with
  | nil => simp
  | cons hd tl ih =>
      intro m0 hfresh hnodup
      simp only [List.foldl_cons, List.map_cons]
      rw [aset_of_lookup_none m0 (key hd) (val hd)
        (hfresh hd (List.mem_cons_self hd tl))]
      obtain ⟨hhd0, hnd⟩ := List.nodup_cons.mp hnodup
      have hhd : ∀ e ∈ tl, key e ≠ key hd := by
        intro e he hke
        exact hhd0 (hke ▸ List.mem_map_of_mem key he)
      rw [ih (m0 ++ [(key hd, val hd)]) ?_ ?_]
      · rw [List.append_assoc]
        rfl
      · intro e he
        exact alookup_append_single_ne m0 (key e) (key hd) (val hd)
          (hfresh e (List.mem_cons_of_mem hd he)) (hhd e he)
      · exact hnd

/-- The rebuilt test→question-ids grouping, looked up at one test. -/
theorem groupFold_getD (L : List Question) (T : TestID) :
    ∀ m0 : AList TestID (List QuestionID),
    (alookup (L.foldl (fun m q => aset m q.TestID
        (((alookup m q.TestID).getD []) ++ [q.ID])) m0) T).getD []
    = ((alookup m0 T).getD [])
      ++ (L.filter (fun q => q.TestID = T)).map (·.ID) := by
  induction L with
  | nil => simp
  | cons hd tl ih =>
      intro m0
      simp only [List.foldl_cons]
      rw [ih]
      by_cases hT : hd.TestID = T
      · rw [hT, alookup_aset_self]
        simp only [Option.getD_some, List.filter_cons, hT, decide_True,
          if_true, List.map_cons, List.append_assoc]
        rfl
      · rw [alookup_aset_ne m0 hd.TestID T _ (fun he => hT he.symm)]
        simp [List.filter_cons, hT]

/-- `ListQuestions` with the absent case folded into `getD`. -/
theorem listQuestions_eq_getD (r : Repository) (tid : TestID) :
    Memory.ListQuestions r tid
      = List.insertionSort byQuestionSeq
          (((alookup r.testQuestions tid).getD []).filterMap
            (fun qid => alookup r.questions qid)) := by
  unfold Memory.ListQuestions
  cases alookup r.testQuestions tid with
  | none => rfl
  | some ids => rfl


/-- Claim C8 (persistence round-trip, spec-modelled snapshot): after a
successful `CreateTest`, exporting the whole store to the snapshot and
rebuilding a repository from it yields a store in which the test is
retrievable under the same id with identical fields (title, teacher,
timestamps, assigned students), the assignment index answers exactly as
before, and `ListQuestions` returns the identical questions with their
sequences. -/
theorem snapshot_roundtrip (r r' : Repository) (test : Test) (qs : List Question)
    (sids : List StudentID)
    (hok : Memory.CreateTest r test qs sids = (none, r'))
    (htestsKeys : ∀ p ∈ r.tests, (p.2 : Test).ID = p.1)
    (hqKeys : ∀ p ∈ r.questions, (p.2 : Question).ID = p.1)
    (hstray : ∀ p ∈ r.questions, ¬ (p.2 : Question).TestID = test.ID)
    (hqfresh : ∀ q ∈ qs, alookup r.questions q.ID = none)
    (hTid : ∀ q ∈ qs, q.TestID = test.ID)
    (hnodupQ : (qs.map (·.ID)).Nodup)
    (hsorted : qs.Pairwise byQuestionSeqLt)
    (hassignNone : alookup r.assignments test.ID = none) :
    Memory.GetTest (FileDB.NewRepositoryFromState (FileDB.ExportState r')) test.ID
      = some { test with AssignedTo := sids } ∧
    Memory.GetTest r' test.ID = some { test with AssignedTo := sids } ∧
    (∀ s : StudentID,
      Memory.IsStudentAssigned (FileDB.NewRepositoryFromState (FileDB.ExportState r'))
        test.ID s = Memory.IsStudentAssigned r' test.ID s) ∧
    Memory.ListQuestions (FileDB.NewRepositoryFromState (FileDB.ExportState r'))
      test.ID = qs ∧
    Memory.ListQuestions r' test.ID = qs := by
  obtain ⟨hshape, hTfreshB, -, -⟩ := createTest_ok_shape r test qs sids r' hok
  have hTnone : alookup r.tests test.ID = none := by
    cases h : alookup r.tests test.ID with
    | none => rfl
    | some tv =>
        exfalso
        have : hasKey r.tests test.ID = true := by simp [hasKey, h]
        rw [hTfreshB] at this
        cases this
  have htests1 : r'.tests = aset r.tests test.ID { test with AssignedTo := sids } := by
    rw [hshape]
  have htests' : r'.tests = r.tests ++ [(test.ID, { test with AssignedTo := sids })] := by
    rw [htests1]
    exact aset_of_lookup_none r.tests test.ID _ hTnone
  have hquestions' : r'.questions
      = r.questions ++ qs.map (fun q => (q.ID, q)) := by
    have h1 : r'.questions = qs.foldl (fun m q => aset m q.ID q) r.questions := by
      rw [hshape]
    rw [h1]
    exact foldl_aset_append qs (·.ID) (fun q => q) r.questions hqfresh hnodupQ
  have hexpT : (FileDB.ExportState r').Tests
      = r.tests.map Prod.snd ++ [{ test with AssignedTo := sids }] := by
    show r'.tests.map Prod.snd = _
    rw [htests']
    simp
  have hexpQ : (FileDB.ExportState r').Questions
      = r.questions.map Prod.snd ++ qs := by
    show r'.questions.map Prod.snd = _
    rw [hquestions', List.map_append, List.map_map]
    show _ ++ List.map (fun q : Question => q) qs = _
    rw [List.map_id']
  have holdT : ∀ tv ∈ r.tests.map Prod.snd, ¬ (tv : Test).ID = test.ID := by
    intro tv hmem hid
    obtain ⟨p, hp, rfl⟩ := List.mem_map.mp hmem
    have hk := htestsKeys p hp
    rw [hid] at hk
    refine alookup_ne_none_of_mem (m := r.tests) (k := test.ID) (v := p.2) ?_ hTnone
    have hpe : p = (test.ID, p.2) := by
      rw [hk]
    rw [← hpe]
    exact hp
  have holdQ : ∀ qv ∈ r.questions.map Prod.snd,
      ∀ q2 ∈ qs, ¬ (qv : Question).ID = q2.ID := by
    intro qv hmem q2 hq2 hid
    obtain ⟨p, hp, rfl⟩ := List.mem_map.mp hmem
    have hk := hqKeys p hp
    rw [hid] at hk
    refine alookup_ne_none_of_mem (m := r.questions) (k := q2.ID) (v := p.2) ?_
      (hqfresh q2 hq2)
    have hpe : p = (q2.ID, p.2) := by
      rw [hk]
    rw [← hpe]
    exact hp
  have hget'' : alookup (FileDB.NewRepositoryFromState (FileDB.ExportState r')).tests
      test.ID = some { test with AssignedTo := sids } := by
    show alookup ((FileDB.ExportState r').Tests.foldl (fun m t => aset m t.ID t) [])
      test.ID = _
    rw [hexpT]
    refine foldl_aset_lookup_unique _ (·.ID) (fun t => t) test.ID
      { test with AssignedTo := sids } rfl []
      (List.mem_append.mpr (Or.inr (List.mem_singleton.mpr rfl))) ?_
    intro e' he' hide
    rcases List.mem_append.mp he' with hmem | hmem
    · exact absurd hide (holdT e' hmem)
    · exact List.mem_singleton.mp hmem
  have hassign'' : alookup
      (FileDB.NewRepositoryFromState (FileDB.ExportState r')).assignments test.ID
      = some sids := by
    show alookup ((FileDB.ExportState r').Tests.foldl
      (fun m t => aset m t.ID t.AssignedTo) []) test.ID = _
    rw [hexpT]
    refine foldl_aset_lookup_unique _ (·.ID) (·.AssignedTo) test.ID
      { test with AssignedTo := sids } rfl []
      (List.mem_append.mpr (Or.inr (List.mem_singleton.mpr rfl))) ?_
    intro e' he' hide
    rcases List.mem_append.mp he' with hmem | hmem
    · exact absurd hide (holdT e' hmem)
    · rw [List.mem_singleton.mp hmem]
  have hgroup : (alookup
      (FileDB.NewRepositoryFromState (FileDB.ExportState r')).testQuestions
      test.ID).getD [] = qs.map (·.ID) := by
    show (alookup ((FileDB.ExportState r').Questions.foldl
      (fun m q => aset m q.TestID (((alookup m q.TestID).getD []) ++ [q.ID])) [])
      test.ID).getD [] = _
    rw [groupFold_getD ((FileDB.ExportState r').Questions) test.ID []]
    rw [hexpQ, List.filter_append]
    rw [List.filter_eq_nil_iff.mpr (by
      intro qv hmem
      obtain ⟨p, hp, rfl⟩ := List.mem_map.mp hmem
      simpa using hstray p hp)]
    rw [List.filter_eq_self.mpr (by
      intro q2 hq2
      simpa using hTid q2 hq2)]
    simp [alookup]
  have hlookupQ'' : ∀ q2 ∈ qs, alookup
      (FileDB.NewRepositoryFromState (FileDB.ExportState r')).questions q2.ID
      = some q2 := by
    intro q2 hq2
    show alookup ((FileDB.ExportState r').Questions.foldl
      (fun m q => aset m q.ID q) []) q2.ID = _
    rw [hexpQ]
    refine foldl_aset_lookup_unique _ (·.ID) (fun q => q) q2.ID q2 rfl []
      (List.mem_append.mpr (Or.inr hq2)) ?_
    intro e' he' hide
    rcases List.mem_append.mp he' with hmem | hmem
    · exact absurd hide (holdQ e' hmem q2 hq2)
    · exact List.inj_on_of_nodup_map hnodupQ hmem hq2 hide
  refine ⟨?_, ?_, ?_, ?_, ?_⟩
  · unfold Memory.GetTest
    exact hget''
  · unfold Memory.GetTest
    rw [htests1]
    exact alookup_aset_self r.tests test.ID _
  · intro s
    have h1 : Memory.IsStudentAssigned
        (FileDB.NewRepositoryFromState (FileDB.ExportState r')) test.ID s
        = decide (s ∈ sids) := by
      unfold Memory.IsStudentAssigned
      rw [hassign'']
    have h2 : Memory.IsStudentAssigned r' test.ID s
        = decide (s ∈ sids.foldl setInsert []) := by
      unfold Memory.IsStudentAssigned
      have ha : r'.assignments = aset r.assignments test.ID
          (sids.foldl setInsert ((alookup r.assignments test.ID).getD [])) := by
        rw [hshape]
      rw [ha, hassignNone, alookup_aset_self]
      rfl
    rw [h1, h2]
    refine decide_eq_decide.mpr ?_
    rw [foldl_setInsert_mem]
    simp
  · rw [listQuestions_eq_getD, hgroup,
      filterMap_map_eq qs (·.ID) _ hlookupQ'']
    exact insertionSort_eq_of_perm_of_sorted qs qs (List.Perm.refl qs) hsorted
  · exact (listQuestions_after_create r r' test qs sids hok hnodupQ hsorted).1


/-- Witness for C8: round-tripping the seeded store after creating `t1`. -/
theorem snapshot_roundtrip_witness :
    Memory.GetTest (FileDB.NewRepositoryFromState (FileDB.ExportState repoT)) testC.ID
      = some { testC with AssignedTo := ["s1", "s2"] } ∧
    Memory.GetTest repoT testC.ID = some { testC with AssignedTo := ["s1", "s2"] } ∧
    (∀ s : StudentID,
      Memory.IsStudentAssigned (FileDB.NewRepositoryFromState (FileDB.ExportState repoT))
        testC.ID s = Memory.IsStudentAssigned repoT testC.ID s) ∧
    Memory.ListQuestions (FileDB.NewRepositoryFromState (FileDB.ExportState repoT))
      testC.ID = questionsC ∧
    Memory.ListQuestions repoT testC.ID = questionsC :=
  snapshot_roundtrip repoC repoT testC questionsC ["s1", "s2"]
    (by decide) (by decide) (by decide) (by decide) (by decide) (by decide)
    (by decide) (by decide) (by decide)

end Assessment
